import Mathlib

/-!
Verification of the multi-feature syllable/accent detector
(`syllable_detector.c`, header `syllable_detector.h`).

Shallow embedding conventions:

* C `float` / `double` arithmetic is idealised as exact arithmetic, over `ℚ`
  where the relevant code uses only field operations and comparisons (state
  machine, ring buffer, prominence scoring), and over `ℝ` where the code calls
  `expf`, `logf`, `sqrtf` or `powf` (real-time fusion, calibration
  finalisation, EMA coefficients).
* C integers are `ℕ` (counters that the code never drives negative) or `ℤ`.
* The detector struct is embedded at two levels:
  - `CState` mirrors the scalar fields of `struct SyllableDetector` for the
    construction / reset contract (the interiors of the owned DSP modules -
    biquad, envelope, ZFF, spectral flux, HFE, MFCC, wavelet, AGC - are owned
    components with their own reset routines and stay outside this record);
  - `DM` mirrors the part of the struct read and written by the per-sample
    state machine, the event ring buffer and the emission loops of
    `syllable_process` / `syllable_flush`.  The values produced by the
    feature-extraction sections of `syllable_process` (sections 0-4: AGC, ZFF,
    peak rate, framed features, fusion, thresholds) depend on DSP-module state
    that is not part of `DM`; each processed sample therefore carries those
    values as an input record `SIn`, universally quantified in every theorem,
    so each theorem holds a fortiori for the composed system.
-/

namespace SyllableDetection

/-! ### Feature statistics (`FeatureStats`, `init_feature_stats`,
`update_feature_stats`) -/

/-- Per-feature running statistics, mirroring `FeatureStats` in
`syllable_detector.c`: EMA mean, EMA variance, running max, EMA coefficient
and a sample counter. -/
structure FeatureStats where
  mean : ℝ
  var : ℝ
  maxVal : ℝ
  alpha : ℝ
  sampleCount : ℕ

/-- Mirrors `init_feature_stats`: zeroed statistics with
`alpha = 1.0f / (tau_s * sample_rate)` where `tau_s = tau_ms * 0.001f`,
clamped to at most `1.0f`. -/
noncomputable def initFeatureStats (tauMs : ℝ) (sampleRate : ℝ) : FeatureStats :=
  { mean := 0
    var := 0
    maxVal := 0
    alpha :=
      if 1 / (tauMs * 0.001 * sampleRate) > 1 then 1
      else 1 / (tauMs * 0.001 * sampleRate)
    sampleCount := 0 }

/-- Mirrors `update_feature_stats`: EMA mean and variance update with the
stored coefficient, running max, and a sample counter saturating at 100000. -/
noncomputable def updateFeatureStats (s : FeatureStats) (value : ℝ) : FeatureStats :=
  { mean := s.mean + s.alpha * (value - s.mean)
    var := (1 - s.alpha) * (s.var + s.alpha * (value - s.mean) * (value - s.mean))
    maxVal := if value > s.maxVal then value else s.maxVal
    alpha := s.alpha
    sampleCount := if s.sampleCount < 100000 then s.sampleCount + 1 else s.sampleCount }

/-- The EMA coefficient that the specification claims for the per-feature
statistics: `alpha = 1 - exp (-1 / (tau_s * fs))` with the time constant
converted to seconds. -/
noncomputable def specEmaAlpha (tauMs : ℝ) (sampleRate : ℝ) : ℝ :=
  1 - Real.exp (-(1 / (tauMs * 0.001 * sampleRate)))

/-- C7 counterexample: at the default configuration (`adaptive_peak_rate_tau_ms
= 500`, `sample_rate = 44100`) `init_feature_stats` stores
`alpha = 1/22050`, which is not the spec formula `1 - exp (-1/22050)`:
the code uses the reciprocal `1/(tau*fs)`, only a first-order approximation
of the claimed exponential form. -/
theorem C7_alpha_not_exponential :
    (initFeatureStats 500 44100).alpha ≠ specEmaAlpha 500 44100 := by
  have h1 : (initFeatureStats 500 44100).alpha = 1 / 22050 := by
    simp only [initFeatureStats]
    rw [if_neg]
    · norm_num
    · norm_num
  have h2 : specEmaAlpha 500 44100 < 1 / 22050 := by
    have hx : (-(1 / 22050) : ℝ) ≠ 0 := by norm_num
    have hlt := Real.add_one_lt_exp hx
    have h3 : (500 : ℝ) * 0.001 * 44100 = 22050 := by norm_num
    simp only [specEmaAlpha, h3]
    nlinarith [hlt]
  rw [h1]
  exact fun h => absurd h2 (by rw [h]; exact lt_irrefl _)

/-- C7 (amended): the per-feature EMA coefficient is derived from the time
constant and sample rate by the clamped reciprocal `min 1 (1/(tau_s*fs))`
(not by `1 - exp (-1/(tau*fs))`), and `update_feature_stats` applies that
single stored coefficient to both the running mean and the running
variance. -/
theorem C7_alpha_reciprocal (tauMs sampleRate : ℝ) (s : FeatureStats) (x : ℝ) :
    (initFeatureStats tauMs sampleRate).alpha = min 1 (1 / (tauMs * 0.001 * sampleRate)) ∧
    (updateFeatureStats s x).mean = s.mean + s.alpha * (x - s.mean) ∧
    (updateFeatureStats s x).var =
      (1 - s.alpha) * (s.var + s.alpha * (x - s.mean) * (x - s.mean)) ∧
    (updateFeatureStats s x).alpha = s.alpha := by
  refine ⟨?_, rfl, rfl, rfl⟩
  simp only [initFeatureStats]
  split
  · next h => rw [min_eq_left (le_of_lt h)]
  · next h => rw [min_eq_right (le_of_not_lt h)]

/-! ### Real-time calibration (`RealtimeCalibration`, `finalize_rt_calibration`)
and real-time fusion (`compute_fusion_realtime`) -/

/-- Mirrors `RealtimeCalibration`: calibration flag, sample counters, the
per-feature circular sample buffer (capacity `RT_BUF_SIZE = 100`, indices
taken modulo 100 by the writer), the SNR factor `gamma` and the six
finalised thresholds. -/
structure RTCal where
  isCalibrating : Bool
  sampleCount : ℕ
  targetSamples : ℕ
  buf : Fin 6 → ℕ → ℝ
  bufIdx : ℕ
  gamma : ℝ
  thresh : Fin 6 → ℝ

/-- Mean over the first `n` buffered frames of feature `k`
(`sum / n` in `finalize_rt_calibration`). -/
noncomputable def rtColMean (cal : RTCal) (k : Fin 6) (n : ℕ) : ℝ :=
  (∑ i ∈ Finset.range n, cal.buf k i) / n

/-- Variance over the first `n` buffered frames of feature `k`
(`sum_sq / n - mean * mean` in `finalize_rt_calibration`). -/
noncomputable def rtColVar (cal : RTCal) (k : Fin 6) (n : ℕ) : ℝ :=
  (∑ i ∈ Finset.range n, cal.buf k i * cal.buf k i) / n - rtColMean cal k n * rtColMean cal k n

/-- Mirrors `finalize_rt_calibration`: with `n = min buf_idx RT_BUF_SIZE`,
recompute `gamma = 10^(snr_db/10)`, set each threshold to `mean + gamma*std`
(conservative default `0.001` when `n < 10`), enforce the `1e-6` minimum,
and clear the calibration flag. -/
noncomputable def finalizeRtCal (snrThresholdDb : ℝ) (cal : RTCal) : RTCal :=
  { cal with
    gamma := (10 : ℝ) ^ (snrThresholdDb / 10)
    thresh := fun k =>
      if min cal.bufIdx 100 < 10 then 0.001
      else
        if rtColMean cal k (min cal.bufIdx 100) +
            (10 : ℝ) ^ (snrThresholdDb / 10) *
              (if rtColVar cal k (min cal.bufIdx 100) > 0 then
                Real.sqrt (rtColVar cal k (min cal.bufIdx 100)) else 0) < 1e-6 then
          1e-6
        else
          rtColMean cal k (min cal.bufIdx 100) +
            (10 : ℝ) ^ (snrThresholdDb / 10) *
              (if rtColVar cal k (min cal.bufIdx 100) > 0 then
                Real.sqrt (rtColVar cal k (min cal.bufIdx 100)) else 0)
    isCalibrating := false }

/-- C5: when real-time calibration finalises with at least 10 buffered frames,
every threshold equals `mu_k + gamma * sigma_k` with `gamma = 10^(snr_db/10)`
and `sigma_k = sqrt(var_k)` over the buffered frames, floored at `1e-6`; the
calibration flag is cleared. -/
theorem C5_finalize_thresholds (snr : ℝ) (cal : RTCal)
    (h : 10 ≤ min cal.bufIdx 100) (k : Fin 6) :
    (finalizeRtCal snr cal).thresh k =
      max (rtColMean cal k (min cal.bufIdx 100) +
            (10 : ℝ) ^ (snr / 10) * Real.sqrt (rtColVar cal k (min cal.bufIdx 100)))
        1e-6 ∧
    (finalizeRtCal snr cal).isCalibrating = false ∧
    (finalizeRtCal snr cal).gamma = (10 : ℝ) ^ (snr / 10) := by
  refine ⟨?_, rfl, rfl⟩
  have hn : ¬ min cal.bufIdx 100 < 10 := not_lt.mpr h
  have hstd :
      (if rtColVar cal k (min cal.bufIdx 100) > 0 then
        Real.sqrt (rtColVar cal k (min cal.bufIdx 100)) else 0) =
      Real.sqrt (rtColVar cal k (min cal.bufIdx 100)) := by
    split
    · rfl
    · next hv => exact (Real.sqrt_eq_zero_of_nonpos (le_of_not_lt hv)).symm
  show (if min cal.bufIdx 100 < 10 then (0.001 : ℝ) else _) = _
  rw [if_neg hn, hstd]
  split
  · next hlt => rw [max_eq_right (le_of_lt hlt)]
  · next hge => rw [max_eq_left (le_of_not_lt hge)]

/-- Concrete calibration state used to witness C5: ten buffered frames, each
with every feature equal to 1. -/
def calTen : RTCal :=
  { isCalibrating := true
    sampleCount := 10
    targetSamples := 10
    buf := fun _ _ => 1
    bufIdx := 10
    gamma := 0
    thresh := fun _ => 0 }

/-- Witness for C5 at `calTen` with the default SNR of 6 dB: the hypothesis
`10 ≤ min buf_idx 100` holds, and the finalised threshold for feature 0
evaluates to the buffered mean 1 (the variance is 0, so the SNR factor drops
out and the `1e-6` floor is inactive). -/
theorem C5_finalize_thresholds_witness :
    10 ≤ min calTen.bufIdx 100 ∧
    (finalizeRtCal 6 calTen).thresh 0 = 1 ∧
    (finalizeRtCal 6 calTen).isCalibrating = false := by
  have hb : 10 ≤ min calTen.bufIdx 100 := by norm_num [calTen]
  have hmain := C5_finalize_thresholds 6 calTen hb 0
  refine ⟨hb, ?_, hmain.2.1⟩
  have hmean : rtColMean calTen 0 (min calTen.bufIdx 100) = 1 := by
    simp [rtColMean, calTen]
  have hvar : rtColVar calTen 0 (min calTen.bufIdx 100) = 0 := by
    rw [rtColVar, hmean]
    simp [calTen]
  rw [hmain.1, hmean, hvar, Real.sqrt_zero, mul_zero, add_zero]
  norm_num

/-- View of the detector state read by `compute_fusion_realtime`,
`syllable_set_snr_threshold` and the realtime energy gate: realtime-mode flag
and SNR setting from the configuration, the calibration state, the six
current feature values and the voicing counter. -/
structure RTDetector where
  realtimeMode : Bool
  snrThresholdDb : ℝ
  rtCal : RTCal
  currentEnergy : ℝ
  currentPeakRate : ℝ
  currentSpectralFlux : ℝ
  currentHighFreqEnergy : ℝ
  currentMfccDelta : ℝ
  currentWaveletScore : ℝ
  voicingCounter : ℕ

/-- The feature vector `f[6]` assembled by `compute_fusion_realtime`:
energy, peak rate, spectral flux, high-frequency energy, MFCC delta, wavelet
score, in array order. -/
def rtFeatures (d : RTDetector) : Fin 6 → ℝ
  | 0 => d.currentEnergy
  | 1 => d.currentPeakRate
  | 2 => d.currentSpectralFlux
  | 3 => d.currentHighFreqEnergy
  | 4 => d.currentMfccDelta
  | 5 => d.currentWaveletScore

/-- Features whose ratio `r = f[k] / thresh[k]` strictly exceeds 1 - the
features the loop in `compute_fusion_realtime` counts as `active`. -/
noncomputable def rtActiveSet (d : RTDetector) : Finset (Fin 6) :=
  Finset.univ.filter fun k => rtFeatures d k / d.rtCal.thresh k > 1

/-- Mirrors `voiced_conf = fminf(1.0f, voicing_counter / 5.0f)`. -/
noncomputable def voicedConf (d : RTDetector) : ℝ :=
  min 1 ((d.voicingCounter : ℝ) / 5)

/-- The value of `active` after the loop and the voicing-confidence boost in
`compute_fusion_realtime`. -/
noncomputable def rtActiveCount (d : RTDetector) : ℕ :=
  (rtActiveSet d).card + if voicedConf d > 0.5 then 1 else 0

/-- The value of `log_sum` after the loop and the voicing-confidence boost in
`compute_fusion_realtime` (the C loop accumulates the same sum in index
order). -/
noncomputable def rtLogSum (d : RTDetector) : ℝ :=
  (∑ k ∈ rtActiveSet d, Real.log (rtFeatures d k / d.rtCal.thresh k)) +
    if voicedConf d > 0.5 then Real.log (1 + voicedConf d) else 0

/-- Mirrors `compute_fusion_realtime`: 0 while calibrating, 0 when no ratio is
active, otherwise `1 - 1/(1 + geo_mean * 0.5)` with
`geo_mean = exp(log_sum / active)`.  (The loop also tracks `max_r`, which the
function never uses; it is omitted.) -/
noncomputable def fusionRealtime (d : RTDetector) : ℝ :=
  if d.rtCal.isCalibrating then 0
  else if rtActiveCount d = 0 then 0
  else 1 - 1 / (1 + Real.exp (rtLogSum d / rtActiveCount d) * 0.5)

/-- The fusion score as the specification words it: `G` is the geometric mean
- the `|A|`-th root of the product - of the ratios strictly above 1 together
with the pseudo-ratio `1 + voicing_conf` when voicing confidence exceeds 0.5,
and the score is `1 - 1/(1 + 0.5*G)`, or 0 when `A` is empty. -/
noncomputable def specFusionRealtime (d : RTDetector) : ℝ :=
  if rtActiveCount d = 0 then 0
  else
    1 - 1 / (1 + 0.5 *
      (((∏ k ∈ rtActiveSet d, rtFeatures d k / d.rtCal.thresh k) *
          (if voicedConf d > 0.5 then 1 + voicedConf d else 1)) ^
        ((1 : ℝ) / rtActiveCount d)))

/-- C4: once calibration has finalised, the realtime fusion score equals the
specification formula (0 when no ratio exceeds 1 and voicing confidence is at
most 0.5, otherwise `1 - 1/(1 + 0.5*G)` for `G` the geometric mean of the
active ratios and pseudo-ratio), and in the active case the score lies
strictly between 0 and 1. -/
theorem C4_fusion_realtime (d : RTDetector) (hcal : d.rtCal.isCalibrating = false) :
    fusionRealtime d = specFusionRealtime d ∧
    (rtActiveCount d ≠ 0 → 0 < fusionRealtime d ∧ fusionRealtime d < 1) ∧
    (rtActiveCount d = 0 → fusionRealtime d = 0) := by
  have hfr : fusionRealtime d =
      if rtActiveCount d = 0 then 0
      else 1 - 1 / (1 + Real.exp (rtLogSum d / rtActiveCount d) * 0.5) := by
    rw [fusionRealtime, hcal]
    simp
  by_cases hz : rtActiveCount d = 0
  · refine ⟨?_, fun h => absurd hz h, fun _ => by rw [hfr, if_pos hz]⟩
    rw [hfr, if_pos hz, specFusionRealtime, if_pos hz]
  · have hrgt : ∀ k ∈ rtActiveSet d, 1 < rtFeatures d k / d.rtCal.thresh k :=
      fun k hk => (Finset.mem_filter.mp hk).2
    have hprodpos : 0 < ∏ k ∈ rtActiveSet d, rtFeatures d k / d.rtCal.thresh k :=
      Finset.prod_pos fun k hk => zero_lt_one.trans (hrgt k hk)
    have hpseudopos : (0:ℝ) < if voicedConf d > 0.5 then 1 + voicedConf d else 1 := by
      split
      · next h => linarith
      · norm_num
    have hP : (0:ℝ) <
        (∏ k ∈ rtActiveSet d, rtFeatures d k / d.rtCal.thresh k) *
          (if voicedConf d > 0.5 then 1 + voicedConf d else 1) :=
      mul_pos hprodpos hpseudopos
    have hlogP : Real.log
        ((∏ k ∈ rtActiveSet d, rtFeatures d k / d.rtCal.thresh k) *
          (if voicedConf d > 0.5 then 1 + voicedConf d else 1)) = rtLogSum d := by
      rw [Real.log_mul (ne_of_gt hprodpos) (ne_of_gt hpseudopos),
        Real.log_prod _ _ fun k hk => ne_of_gt (zero_lt_one.trans (hrgt k hk)),
        rtLogSum]
      congr 1
      split
      · rfl
      · exact Real.log_one
    have hexp : Real.exp (rtLogSum d / rtActiveCount d) =
        ((∏ k ∈ rtActiveSet d, rtFeatures d k / d.rtCal.thresh k) *
          (if voicedConf d > 0.5 then 1 + voicedConf d else 1)) ^
          ((1 : ℝ) / rtActiveCount d) := by
      rw [Real.rpow_def_of_pos hP, hlogP, mul_one_div]
    have hEpos : 0 < Real.exp (rtLogSum d / rtActiveCount d) := Real.exp_pos _
    have hden : (1:ℝ) < 1 + Real.exp (rtLogSum d / rtActiveCount d) * 0.5 := by
      nlinarith
    refine ⟨?_, fun _ => ?_, fun h => absurd h hz⟩
    · rw [hfr, if_neg hz, specFusionRealtime, if_neg hz, ← hexp]
      ring_nf
    · rw [hfr, if_neg hz]
      constructor
      · have hlt : 1 / (1 + Real.exp (rtLogSum d / rtActiveCount d) * 0.5) < 1 := by
          rw [div_lt_one (by linarith)]
          exact hden
        linarith
      · have hpos : 0 < 1 / (1 + Real.exp (rtLogSum d / rtActiveCount d) * 0.5) := by
          positivity
        linarith

/-- Concrete post-calibration detector used to witness C4: thresholds all 1,
energy 2 (one active ratio), all other features 0 and no voicing. -/
def rtWit : RTDetector :=
  { realtimeMode := true
    snrThresholdDb := 6
    rtCal :=
      { isCalibrating := false, sampleCount := 0, targetSamples := 0,
        buf := fun _ _ => 0, bufIdx := 0, gamma := 1, thresh := fun _ => 1 }
    currentEnergy := 2
    currentPeakRate := 0
    currentSpectralFlux := 0
    currentHighFreqEnergy := 0
    currentMfccDelta := 0
    currentWaveletScore := 0
    voicingCounter := 0 }

/-- Witness for C4 at `rtWit`: calibration is finished, exactly one ratio is
active, and the fusion score matches the specification formula and lies in
(0, 1). -/
theorem C4_fusion_realtime_witness :
    rtWit.rtCal.isCalibrating = false ∧ rtActiveCount rtWit ≠ 0 ∧
    fusionRealtime rtWit = specFusionRealtime rtWit ∧
    0 < fusionRealtime rtWit ∧ fusionRealtime rtWit < 1 := by
  have hset : rtActiveSet rtWit = {0} := by
    ext k
    fin_cases k <;> simp [rtActiveSet, rtFeatures, rtWit]
  have hvc : ¬ voicedConf rtWit > 0.5 := by
    simp only [voicedConf, rtWit]
    norm_num
  have hcount : rtActiveCount rtWit = 1 := by
    rw [rtActiveCount, hset, if_neg hvc]
    rfl
  have hne : rtActiveCount rtWit ≠ 0 := by
    rw [hcount]
    exact one_ne_zero
  have h := C4_fusion_realtime rtWit rfl
  exact ⟨rfl, hne, h.1, (h.2.1 hne).1, (h.2.1 hne).2⟩

/-- Mirrors `syllable_set_snr_threshold`: store the new SNR value and, when
already calibrated in realtime mode, refresh `gamma`; nothing else is
written. -/
noncomputable def setSnrThreshold (d : RTDetector) (snrDb : ℝ) : RTDetector :=
  { d with
    snrThresholdDb := snrDb
    rtCal :=
      { d.rtCal with
        gamma :=
          if !d.rtCal.isCalibrating && d.realtimeMode then (10:ℝ) ^ (snrDb / 10)
          else d.rtCal.gamma } }

/-- The energy gate of the realtime IDLE branch reads the calibrated threshold
`thresh[0]` (`energy_threshold = rt_cal.thresh[0] * 3.0f`) and an absolute
floor of 0.001; it never reads `gamma` or `snr_threshold_db`. -/
noncomputable def rtEnergyGate (d : RTDetector) : Prop :=
  d.currentEnergy > d.rtCal.thresh 0 * 3 ∧ d.currentEnergy > 0.001

/-- C10: `set_snr_threshold` updates only the stored SNR value and (when
calibration already finalised in realtime mode) `gamma`; the six calibrated
thresholds, the calibration flag and buffer, and every detection-relevant
quantity (the realtime fusion score and the realtime energy gate) are
unchanged. -/
theorem C10_setSnr_frame (d : RTDetector) (x : ℝ) :
    (setSnrThreshold d x).snrThresholdDb = x ∧
    (setSnrThreshold d x).rtCal.gamma =
      (if !d.rtCal.isCalibrating && d.realtimeMode then (10:ℝ) ^ (x / 10)
       else d.rtCal.gamma) ∧
    (setSnrThreshold d x).rtCal.thresh = d.rtCal.thresh ∧
    (setSnrThreshold d x).rtCal.isCalibrating = d.rtCal.isCalibrating ∧
    (setSnrThreshold d x).rtCal.buf = d.rtCal.buf ∧
    (setSnrThreshold d x).realtimeMode = d.realtimeMode ∧
    (setSnrThreshold d x).currentEnergy = d.currentEnergy ∧
    (setSnrThreshold d x).voicingCounter = d.voicingCounter ∧
    fusionRealtime (setSnrThreshold d x) = fusionRealtime d ∧
    (rtEnergyGate (setSnrThreshold d x) ↔ rtEnergyGate d) :=
  ⟨rfl, rfl, rfl, rfl, rfl, rfl, rfl, rfl, rfl, Iff.rfl⟩

/-! ### Offline fusion weight normalisation (`compute_fusion_score`,
weighted-average part) -/

/-- The configured fusion weights (`weight_*` fields of `SyllableConfig`). -/
structure FusionWeights where
  weightPeakRate : ℚ
  weightSpectralFlux : ℚ
  weightHighFreq : ℚ
  weightMfccDelta : ℚ
  weightWavelet : ℚ
  weightVoicedBonus : ℚ
deriving DecidableEq

/-- Which optional feature modules exist on the detector.  `syllable_create`
allocates each module exactly when its `enable_*` flag is set, and
`compute_fusion_score` tests the module pointers, so these booleans coincide
with the configuration's enable flags. -/
structure FeatureEnables where
  sf : Bool
  hf : Bool
  mfcc : Bool
  wavelet : Bool
deriving DecidableEq

/-- The accumulated weight total `w_total` of `compute_fusion_score`:
peak rate and the voiced bonus always contribute; each optional feature
contributes its weight exactly when its module exists. -/
def wTotal (w : FusionWeights) (e : FeatureEnables) : ℚ :=
  w.weightPeakRate + (if e.sf then w.weightSpectralFlux else 0) +
    (if e.hf then w.weightHighFreq else 0) +
    (if e.mfcc then w.weightMfccDelta else 0) +
    (if e.wavelet then w.weightWavelet else 0) + w.weightVoicedBonus

/-- The accumulated numerator of the weighted average in
`compute_fusion_score`: a disabled feature contributes neither its value nor
its weight. -/
def weightedAccum (w : FusionWeights) (e : FeatureEnables)
    (nPr nSf nHf nMfcc nWav vb : ℚ) : ℚ :=
  w.weightPeakRate * nPr + (if e.sf then w.weightSpectralFlux * nSf else 0) +
    (if e.hf then w.weightHighFreq * nHf else 0) +
    (if e.mfcc then w.weightMfccDelta * nMfcc else 0) +
    (if e.wavelet then w.weightWavelet * nWav else 0) + w.weightVoicedBonus * vb

/-- The weighted average of `compute_fusion_score`: the accumulator divided by
`w_total` when `w_total > 0` (the code divides only in that case). -/
def weightedAvg (w : FusionWeights) (e : FeatureEnables)
    (nPr nSf nHf nMfcc nWav vb : ℚ) : ℚ :=
  if wTotal w e > 0 then weightedAccum w e nPr nSf nHf nMfcc nWav vb / wTotal w e
  else weightedAccum w e nPr nSf nHf nMfcc nWav vb

/-- C8: for every subset of the optional enable flags, the effective weights
`w_i / w_total` over the enabled contributions sum to 1, and the weighted
average equals the sum of the effective weights times the normalised feature
values - the rule is self-renormalising. -/
theorem C8_weights_renormalize (w : FusionWeights) (e : FeatureEnables)
    (h : 0 < wTotal w e) (nPr nSf nHf nMfcc nWav vb : ℚ) :
    w.weightPeakRate / wTotal w e +
      (if e.sf then w.weightSpectralFlux / wTotal w e else 0) +
      (if e.hf then w.weightHighFreq / wTotal w e else 0) +
      (if e.mfcc then w.weightMfccDelta / wTotal w e else 0) +
      (if e.wavelet then w.weightWavelet / wTotal w e else 0) +
      w.weightVoicedBonus / wTotal w e = 1 ∧
    weightedAvg w e nPr nSf nHf nMfcc nWav vb =
      (w.weightPeakRate / wTotal w e) * nPr +
      (if e.sf then (w.weightSpectralFlux / wTotal w e) * nSf else 0) +
      (if e.hf then (w.weightHighFreq / wTotal w e) * nHf else 0) +
      (if e.mfcc then (w.weightMfccDelta / wTotal w e) * nMfcc else 0) +
      (if e.wavelet then (w.weightWavelet / wTotal w e) * nWav else 0) +
      (w.weightVoicedBonus / wTotal w e) * vb := by
  have hne : wTotal w e ≠ 0 := ne_of_gt h
  have key : ∀ (c : Bool) (x : ℚ),
      (if c then x / wTotal w e else 0) = (if c then x else 0) / wTotal w e := by
    intro c x
    cases c <;> simp
  constructor
  · simp only [key, div_add_div_same]
    exact div_self hne
  · rw [weightedAvg, if_pos h]
    simp only [div_mul_eq_mul_div, key, div_add_div_same]
    rfl

/-- The default fusion weights from `syllable_default_config`. -/
def defaultWeights : FusionWeights :=
  { weightPeakRate := 0.30
    weightSpectralFlux := 0.25
    weightHighFreq := 0.15
    weightMfccDelta := 0.10
    weightWavelet := 0.20
    weightVoicedBonus := 0.10 }

/-- Witness for C8: with the default weights and spectral flux disabled,
`w_total = 0.85 > 0`, the effective weights sum to 1, and the weighted average
at concrete normalised inputs is renormalised accordingly. -/
theorem C8_weights_renormalize_witness :
    0 < wTotal defaultWeights ⟨false, true, true, true⟩ ∧
    (defaultWeights.weightPeakRate / wTotal defaultWeights ⟨false, true, true, true⟩ +
      (if (false : Bool) then defaultWeights.weightSpectralFlux /
        wTotal defaultWeights ⟨false, true, true, true⟩ else 0) +
      (if (true : Bool) then defaultWeights.weightHighFreq /
        wTotal defaultWeights ⟨false, true, true, true⟩ else 0) +
      (if (true : Bool) then defaultWeights.weightMfccDelta /
        wTotal defaultWeights ⟨false, true, true, true⟩ else 0) +
      (if (true : Bool) then defaultWeights.weightWavelet /
        wTotal defaultWeights ⟨false, true, true, true⟩ else 0) +
      defaultWeights.weightVoicedBonus /
        wTotal defaultWeights ⟨false, true, true, true⟩ = 1) := by
  have h : 0 < wTotal defaultWeights ⟨false, true, true, true⟩ := by
    norm_num [wTotal, defaultWeights]
  exact ⟨h, (C8_weights_renormalize defaultWeights ⟨false, true, true, true⟩ h 1 1 1 1 1 1).1⟩

/-! ### Construction and reset (`syllable_create`, `syllable_reset`) -/

/-- The four states of the syllable state machine (enum order as declared, so
`memset` zero initialisation yields `STATE_IDLE`). -/
inductive SMState
  | idle
  | onsetRising
  | nucleus
  | cooldown
deriving DecidableEq

/-- Onset types (`SyllableOnsetType`; `ONSET_TYPE_VOICED = 0`). -/
inductive SOnsetType
  | voiced
  | unvoiced
  | mixed
deriving DecidableEq

/-- The output event record `SyllableEvent`, real-valued (used by the
construction / reset model). -/
structure EventR where
  timestampSamples : ℕ
  timeSeconds : ℝ
  peakRate : ℝ
  prSlope : ℝ
  energy : ℝ
  f0 : ℝ
  deltaF0 : ℝ
  durationS : ℝ
  spectralFlux : ℝ
  highFreqEnergy : ℝ
  mfccDelta : ℝ
  waveletScore : ℝ
  fusionScore : ℝ
  onsetType : SOnsetType
  prominenceScore : ℝ
  isAccented : Bool

/-- The all-zero event produced by `memset` (onset type 0 = voiced). -/
def EventR.zero : EventR :=
  { timestampSamples := 0, timeSeconds := 0, peakRate := 0, prSlope := 0,
    energy := 0, f0 := 0, deltaF0 := 0, durationS := 0, spectralFlux := 0,
    highFreqEnergy := 0, mfccDelta := 0, waveletScore := 0, fusionScore := 0,
    onsetType := .voiced, prominenceScore := 0, isAccented := false }

/-- The all-zero feature statistics produced by `memset`. -/
def FeatureStats.zero : FeatureStats :=
  { mean := 0, var := 0, maxVal := 0, alpha := 0, sampleCount := 0 }

/-- The all-zero calibration state produced by `memset` (not calibrating). -/
def RTCal.zero : RTCal :=
  { isCalibrating := false, sampleCount := 0, targetSamples := 0,
    buf := fun _ _ => 0, bufIdx := 0, gamma := 0, thresh := fun _ => 0 }

/-- The configuration record `SyllableConfig` (memory-allocator fields
omitted). -/
structure CConfig where
  sampleRate : ℤ
  zffTrendWindowMs : ℝ
  peakRateBandMin : ℝ
  peakRateBandMax : ℝ
  minSyllableDistMs : ℝ
  thresholdPeakRate : ℝ
  adaptivePeakRateK : ℝ
  adaptivePeakRateTauMs : ℝ
  voicedHoldMs : ℝ
  hysteresisOnFactor : ℝ
  hysteresisOffFactor : ℝ
  contextSize : ℕ
  enableSpectralFlux : Bool
  enableHighFreqEnergy : Bool
  enableMfccDelta : Bool
  enableWavelet : Bool
  enableAgc : Bool
  fftSizeMs : ℝ
  hopSizeMs : ℝ
  highFreqCutoffHz : ℝ
  weightPeakRate : ℝ
  weightSpectralFlux : ℝ
  weightHighFreq : ℝ
  weightMfccDelta : ℝ
  weightWavelet : ℝ
  weightVoicedBonus : ℝ
  fusionBlendAlpha : ℝ
  unvoicedOnsetThreshold : ℝ
  allowUnvoicedOnsets : Bool
  enableAgcFlag : Bool
  realtimeMode : Bool
  calibrationDurationMs : ℝ
  snrThresholdDb : ℝ

/-- C truncation `(int)x` for the (nonnegative) duration-to-sample
conversions. -/
noncomputable def cTrunc (x : ℝ) : ℤ :=
  if 0 ≤ x then ⌊x⌋ else -⌊-x⌋

/-- The scalar state of `struct SyllableDetector`.  The interiors of the owned
DSP modules (biquad, envelope follower, ZFF, spectral flux, HFE, MFCC,
wavelet, AGC) and the allocator pointers are owned components outside this
record; both `syllable_create` and `syllable_reset` reinitialise the biquad,
envelope output and ZFF state identically, while `syllable_reset` calls the
reset routines of spectral flux / HFE / MFCC but never touches the wavelet or
AGC modules. -/
structure CState where
  config : CConfig
  totalSamples : ℕ
  prevEnv : ℝ
  currentPeakRate : ℝ
  peakRateAccum : ℝ
  lastZffVal : ℝ
  lastZffSlope : ℝ
  lastEpochSamplesAgo : ℤ
  currentF0 : ℝ
  smoothedF0 : ℝ
  prevSmoothedF0 : ℝ
  f0Derivative : ℝ
  minF0SincePeak : ℝ
  f0HasRisen : Bool
  f0JumpCounter : ℕ
  f0Baseline : ℝ
  f0BaselineAlpha : ℝ
  f0SemitoneDiff : ℝ
  fusionHistory : ℕ → ℝ
  fusionHistoryIdx : ℕ
  fusionHistoryCount : ℕ
  fusionMedian : ℝ
  fusionMad : ℝ
  voicingCounter : ℕ
  unvoicedCounter : ℕ
  isVoiced : Bool
  voicedHoldSamples : ℤ
  currentEnergy : ℝ
  energyFloor : ℝ
  prevSample : ℝ
  prevPrevSample : ℝ
  currentTeo : ℝ
  teoMean : ℝ
  teoVar : ℝ
  shortEnergy : ℝ
  longEnergy : ℝ
  currentLer : ℝ
  adaptiveEnabled : Bool
  adaptiveMean : ℝ
  adaptiveVar : ℝ
  adaptiveAlpha : ℝ
  statsPeakRate : FeatureStats
  statsSpectralFlux : FeatureStats
  statsHighFreq : FeatureStats
  statsMfccDelta : FeatureStats
  statsWavelet : FeatureStats
  currentSpectralFlux : ℝ
  currentHighFreqEnergy : ℝ
  currentMfccDelta : ℝ
  currentWaveletScore : ℝ
  currentFusionScore : ℝ
  smState : SMState
  stateTimer : ℕ
  maxOnsetRisingSamples : ℤ
  wipEvent : EventR
  maxPeakRateInSyllable : ℝ
  maxFusionScoreInSyllable : ℝ
  energyAccum : ℝ
  onsetTimestamp : ℕ
  lastEventSamples : ℕ
  peakSampleOffset : ℕ
  currentOnsetType : SOnsetType
  bufferEvents : ℕ → EventR
  bufferReady : ℕ → Bool
  bufWriteIdx : ℕ
  bufReadIdx : ℕ
  bufCount : ℕ
  rtCal : RTCal

/-- Mirrors `syllable_reset` on the scalar state: zero the sample counter and
envelope memory, return the state machine to IDLE, clear voicing, empty the
ring buffer (indices, count and `is_ready` flags; the stale event payloads in
the slots are not rewritten), zero the adaptive statistics and the current
spectral-flux / high-frequency / MFCC / fusion values (`current_wavelet_score`
is not on the list), and reinitialise the five per-feature statistics.
Everything else is left as it was. -/
noncomputable def resetState (s : CState) : CState :=
  { s with
    totalSamples := 0
    prevEnv := 0
    smState := .idle
    isVoiced := false
    voicingCounter := 0
    unvoicedCounter := 0
    bufReadIdx := 0
    bufWriteIdx := 0
    bufCount := 0
    bufferReady := fun _ => false
    adaptiveMean := 0
    adaptiveVar := 0
    currentSpectralFlux := 0
    currentHighFreqEnergy := 0
    currentMfccDelta := 0
    currentFusionScore := 0
    statsPeakRate := initFeatureStats s.config.adaptivePeakRateTauMs s.config.sampleRate
    statsSpectralFlux := initFeatureStats s.config.adaptivePeakRateTauMs s.config.sampleRate
    statsHighFreq := initFeatureStats s.config.adaptivePeakRateTauMs s.config.sampleRate
    statsMfccDelta := initFeatureStats s.config.adaptivePeakRateTauMs s.config.sampleRate
    statsWavelet := initFeatureStats s.config.adaptivePeakRateTauMs s.config.sampleRate }

/-- Mirrors the body of `syllable_create` before its final `syllable_reset`
call: `memset` zeroes every field, then the explicitly initialised scalars are
set (voiced-hold window, 50 ms ONSET_RISING limit, `f0_has_risen = 1`,
LER seed values, F0-baseline EMA coefficient, fusion-history median/MAD
seeds, adaptive-threshold coefficient, and the first four per-feature
statistics; `stats_wavelet` is only initialised by the reset call that
follows). -/
noncomputable def createPreState (cfg : CConfig) : CState :=
  { config := cfg
    totalSamples := 0
    prevEnv := 0
    currentPeakRate := 0
    peakRateAccum := 0
    lastZffVal := 0
    lastZffSlope := 0
    lastEpochSamplesAgo := 0
    currentF0 := 0
    smoothedF0 := 0
    prevSmoothedF0 := 0
    f0Derivative := 0
    minF0SincePeak := 0
    f0HasRisen := true
    f0JumpCounter := 0
    f0Baseline := 0
    f0BaselineAlpha := 1 - Real.exp (-(1 / (1 * (cfg.sampleRate : ℝ))))
    f0SemitoneDiff := 0
    fusionHistory := fun _ => 0
    fusionHistoryIdx := 0
    fusionHistoryCount := 0
    fusionMedian := 0.5
    fusionMad := 0.2
    voicingCounter := 0
    unvoicedCounter := 0
    isVoiced := false
    voicedHoldSamples :=
      if cTrunc (cfg.voicedHoldMs * 0.001 * (cfg.sampleRate : ℝ)) < 1 then 1
      else cTrunc (cfg.voicedHoldMs * 0.001 * (cfg.sampleRate : ℝ))
    currentEnergy := 0
    energyFloor := 0
    prevSample := 0
    prevPrevSample := 0
    currentTeo := 0
    teoMean := 0
    teoVar := 0
    shortEnergy := 0
    longEnergy := 0.0001
    currentLer := 1
    adaptiveEnabled :=
      if cfg.adaptivePeakRateK > 0 ∧ cfg.adaptivePeakRateTauMs > 0 then true else false
    adaptiveMean := 0
    adaptiveVar := 0
    adaptiveAlpha :=
      if cfg.adaptivePeakRateK > 0 ∧ cfg.adaptivePeakRateTauMs > 0 then
        if 1 / (cfg.adaptivePeakRateTauMs * 0.001 * (cfg.sampleRate : ℝ)) > 1 then 1
        else 1 / (cfg.adaptivePeakRateTauMs * 0.001 * (cfg.sampleRate : ℝ))
      else 0
    statsPeakRate := initFeatureStats cfg.adaptivePeakRateTauMs cfg.sampleRate
    statsSpectralFlux := initFeatureStats cfg.adaptivePeakRateTauMs cfg.sampleRate
    statsHighFreq := initFeatureStats cfg.adaptivePeakRateTauMs cfg.sampleRate
    statsMfccDelta := initFeatureStats cfg.adaptivePeakRateTauMs cfg.sampleRate
    statsWavelet := FeatureStats.zero
    currentSpectralFlux := 0
    currentHighFreqEnergy := 0
    currentMfccDelta := 0
    currentWaveletScore := 0
    currentFusionScore := 0
    smState := .idle
    stateTimer := 0
    maxOnsetRisingSamples := cTrunc (0.050 * (cfg.sampleRate : ℝ))
    wipEvent := EventR.zero
    maxPeakRateInSyllable := 0
    maxFusionScoreInSyllable := 0
    energyAccum := 0
    onsetTimestamp := 0
    lastEventSamples := 0
    peakSampleOffset := 0
    currentOnsetType := .voiced
    bufferEvents := fun _ => EventR.zero
    bufferReady := fun _ => false
    bufWriteIdx := 0
    bufReadIdx := 0
    bufCount := 0
    rtCal := RTCal.zero }

/-- The state right after `syllable_create` returns: the create body followed
by its final `syllable_reset` call. -/
noncomputable def postCreateState (cfg : CConfig) : CState :=
  resetState (createPreState cfg)

/-- The default configuration from `syllable_default_config` at 44100 Hz. -/
noncomputable def defaultCConfig : CConfig :=
  { sampleRate := 44100
    zffTrendWindowMs := 10
    peakRateBandMin := 500
    peakRateBandMax := 3200
    minSyllableDistMs := 150
    thresholdPeakRate := 0.0003
    adaptivePeakRateK := 4
    adaptivePeakRateTauMs := 500
    voicedHoldMs := 30
    hysteresisOnFactor := 1.2
    hysteresisOffFactor := 0.8
    contextSize := 2
    enableSpectralFlux := true
    enableHighFreqEnergy := true
    enableMfccDelta := true
    enableWavelet := true
    enableAgc := true
    fftSizeMs := 32
    hopSizeMs := 16
    highFreqCutoffHz := 2000
    weightPeakRate := 0.30
    weightSpectralFlux := 0.25
    weightHighFreq := 0.15
    weightMfccDelta := 0.10
    weightWavelet := 0.20
    weightVoicedBonus := 0.10
    fusionBlendAlpha := 0.6
    unvoicedOnsetThreshold := 0.5
    allowUnvoicedOnsets := true
    enableAgcFlag := true
    realtimeMode := false
    calibrationDurationMs := 2000
    snrThresholdDb := 6 }

/-- A detector state with some processing history: here, post-construction
state except that an onset consumed the `f0_has_risen` latch (the IDLE-to-
ONSET_RISING transition clears it). -/
noncomputable def usedState : CState :=
  { postCreateState defaultCConfig with f0HasRisen := false }

/-- C1 counterexample: `syllable_reset` does not return the detector to
post-construction state.  From `usedState`, whose only deviation from the
fresh state is the cleared `f0_has_risen` latch, `syllable_reset` preserves
`f0_has_risen = 0`, while `syllable_create` sets it to 1 - so the reset state
differs from the post-construction state for the same configuration. -/
theorem C1_reset_not_create : resetState usedState ≠ postCreateState usedState.config := by
  intro h
  have hb : (resetState usedState).f0HasRisen =
      (postCreateState usedState.config).f0HasRisen := by rw [h]
  have h1 : (resetState usedState).f0HasRisen = false := rfl
  have h2 : (postCreateState usedState.config).f0HasRisen = true := rfl
  rw [h1, h2] at hb
  exact Bool.false_ne_true hb

/-- C1 (amended): `syllable_reset` clears the sample counter, returns the
state-machine state flag to IDLE, clears the voicing flags and counters, the
ring-buffer read/write indices, count and ready flags, the adaptive
statistics, the current framed-feature and fusion values, and re-initialises
the per-feature statistics exactly as construction does; but it preserves -
rather than restores - the F0 tracking state (including the `f0_has_risen`
latch that construction sets to 1), the in-flight candidate/nucleus
bookkeeping (`state_timer`, `wip_event`, `max_peak_rate_in_syllable`,
`max_fusion_score_in_syllable`, `energy_accum`, `onset_timestamp`,
`peak_sample_offset`, `current_onset_type`), `last_event_samples`, the
fusion-score history/median/MAD, the energy floor and TEO/LER accumulators,
`current_peak_rate`, `current_wavelet_score`, the stale ring-slot payloads
and the realtime calibration state; so after a reset the detector is not in
post-construction state and equal event output is not guaranteed. -/
theorem C1_reset_frame (s : CState) :
    resetState s =
      { postCreateState s.config with
        currentPeakRate := s.currentPeakRate
        peakRateAccum := s.peakRateAccum
        lastZffVal := s.lastZffVal
        lastZffSlope := s.lastZffSlope
        lastEpochSamplesAgo := s.lastEpochSamplesAgo
        currentF0 := s.currentF0
        smoothedF0 := s.smoothedF0
        prevSmoothedF0 := s.prevSmoothedF0
        f0Derivative := s.f0Derivative
        minF0SincePeak := s.minF0SincePeak
        f0HasRisen := s.f0HasRisen
        f0JumpCounter := s.f0JumpCounter
        f0Baseline := s.f0Baseline
        f0BaselineAlpha := s.f0BaselineAlpha
        f0SemitoneDiff := s.f0SemitoneDiff
        fusionHistory := s.fusionHistory
        fusionHistoryIdx := s.fusionHistoryIdx
        fusionHistoryCount := s.fusionHistoryCount
        fusionMedian := s.fusionMedian
        fusionMad := s.fusionMad
        voicedHoldSamples := s.voicedHoldSamples
        currentEnergy := s.currentEnergy
        energyFloor := s.energyFloor
        prevSample := s.prevSample
        prevPrevSample := s.prevPrevSample
        currentTeo := s.currentTeo
        teoMean := s.teoMean
        teoVar := s.teoVar
        shortEnergy := s.shortEnergy
        longEnergy := s.longEnergy
        currentLer := s.currentLer
        adaptiveEnabled := s.adaptiveEnabled
        adaptiveAlpha := s.adaptiveAlpha
        currentWaveletScore := s.currentWaveletScore
        stateTimer := s.stateTimer
        maxOnsetRisingSamples := s.maxOnsetRisingSamples
        wipEvent := s.wipEvent
        maxPeakRateInSyllable := s.maxPeakRateInSyllable
        maxFusionScoreInSyllable := s.maxFusionScoreInSyllable
        energyAccum := s.energyAccum
        onsetTimestamp := s.onsetTimestamp
        lastEventSamples := s.lastEventSamples
        peakSampleOffset := s.peakSampleOffset
        currentOnsetType := s.currentOnsetType
        bufferEvents := s.bufferEvents
        rtCal := s.rtCal } := rfl

/-! ### The per-sample state machine, event ring buffer and emission loops
(`syllable_process` sections 5-6, `syllable_flush`)

The feature-extraction sections of `syllable_process` (AGC, ZFF/F0 tracking,
peak rate, TEO, LER, framed features, fusion score, adaptive threshold)
update DSP state that is outside this model; the values they hand to the
state machine at each sample are therefore taken as an input record `SIn`,
universally quantified in every theorem below, so each theorem holds for
every behaviour of those sections.  The state machine's writes back into that
feature state (`min_f0_since_peak`, `f0_has_risen` at an onset) only influence
future `SIn` values and are absorbed by that quantification. -/

/-- The output event record `SyllableEvent`, rational-valued (used by the
state-machine model). -/
structure EventQ where
  timestampSamples : ℕ
  timeSeconds : ℚ
  peakRate : ℚ
  prSlope : ℚ
  energy : ℚ
  f0 : ℚ
  deltaF0 : ℚ
  durationS : ℚ
  spectralFlux : ℚ
  highFreqEnergy : ℚ
  mfccDelta : ℚ
  waveletScore : ℚ
  fusionScore : ℚ
  onsetType : SOnsetType
  prominenceScore : ℚ
  isAccented : Bool
deriving DecidableEq

/-- The all-zero event (`memset` of the WIP event; onset type 0 = voiced). -/
def EventQ.zero : EventQ :=
  { timestampSamples := 0, timeSeconds := 0, peakRate := 0, prSlope := 0,
    energy := 0, f0 := 0, deltaF0 := 0, durationS := 0, spectralFlux := 0,
    highFreqEnergy := 0, mfccDelta := 0, waveletScore := 0, fusionScore := 0,
    onsetType := .voiced, prominenceScore := 0, isAccented := false }

/-- The configuration fields the state machine and emission read.  The
duration fields are pre-converted to sample counts, exactly as the code
recomputes them each sample: `minDistSamples =
(int)(min_syllable_dist_ms * 0.001f * sample_rate)`,
`maxOnsetRisingSamples = (int)(0.050f * sample_rate)` (set at construction),
`maxNucleusSamples = (int)(0.1f * sample_rate)`. -/
structure MConfig where
  sampleRate : ℚ
  minDistSamples : ℕ
  maxOnsetRisingSamples : ℕ
  maxNucleusSamples : ℕ
  hysteresisOnFactor : ℚ
  hysteresisOffFactor : ℚ
  unvoicedOnsetThreshold : ℚ
  allowUnvoicedOnsets : Bool
  realtimeMode : Bool
  contextSize : ℕ
deriving DecidableEq

/-- Per-sample values handed to the state machine by the feature-extraction
sections of `syllable_process`:

* `peakRate` - the local `peak_rate`;
* `envOut` - `env_out`, which is also `d->current_energy` for this sample;
* `fusionScore` - `d->current_fusion_score` after section 4;
* `spectralFlux`, `highFreqEnergy`, `mfccDelta`, `waveletScore`, `currentF0`
  - the current feature snapshot values;
* `isVoiced` - `d->is_voiced` after the voicing logic;
* `sfNorm`, `hfNorm` - the legacy `normalize_feature` values of spectral flux
  and high-frequency energy (the same `hf_norm` feeds
  `determine_onset_type`);
* `f0HasRisen` - the latch value at the time the IDLE branch reads it;
* `teoNormalized` - `(current_teo - teo_mean) / (teo_std + 1e-6)`;
* `currentLer`, `flatnessWeber` - the auxiliary Weber signals;
* `threshold` - the adaptive peak-rate threshold
  `max(threshold_peak_rate, adaptive_mean + k*adaptive_std)`;
* `calThresh0` - the value `finalize_rt_calibration` would store in
  `rt_cal.thresh[0]` if calibration finalises at this sample (the formula
  itself is verified in the `RTCal` section). -/
structure SIn where
  peakRate : ℚ
  envOut : ℚ
  fusionScore : ℚ
  spectralFlux : ℚ
  highFreqEnergy : ℚ
  mfccDelta : ℚ
  waveletScore : ℚ
  currentF0 : ℚ
  isVoiced : Bool
  sfNorm : ℚ
  hfNorm : ℚ
  f0HasRisen : Bool
  teoNormalized : ℚ
  currentLer : ℚ
  flatnessWeber : ℚ
  threshold : ℚ
  calThresh0 : ℚ
deriving DecidableEq

/-- The part of `struct SyllableDetector` read and written by the state
machine, the event ring buffer (`PROMINENCE_BUFFER_SIZE = 16`, all slot
indices taken modulo 16) and the emission loops, plus the realtime
calibration control counters. -/
structure DM where
  totalSamples : ℕ
  smState : SMState
  stateTimer : ℕ
  wipEvent : EventQ
  maxPeakRateInSyllable : ℚ
  maxFusionScoreInSyllable : ℚ
  energyAccum : ℚ
  onsetTimestamp : ℕ
  lastEventSamples : ℕ
  peakSampleOffset : ℕ
  currentOnsetType : SOnsetType
  bufferEvents : ℕ → EventQ
  bufferReady : ℕ → Bool
  bufWriteIdx : ℕ
  bufReadIdx : ℕ
  bufCount : ℕ
  rtIsCalibrating : Bool
  rtSampleCount : ℕ
  rtTargetSamples : ℕ
  rtThresh0 : ℚ

/-- The machine state right after `syllable_create` (`memset` zero, state
IDLE, empty ring buffer, realtime calibration not started - `syllable_create`
zeroes `rt_cal` even when `realtime_mode` is set in the configuration). -/
def initDM : DM :=
  { totalSamples := 0, smState := .idle, stateTimer := 0, wipEvent := EventQ.zero,
    maxPeakRateInSyllable := 0, maxFusionScoreInSyllable := 0, energyAccum := 0,
    onsetTimestamp := 0, lastEventSamples := 0, peakSampleOffset := 0,
    currentOnsetType := .voiced,
    bufferEvents := fun _ => EventQ.zero, bufferReady := fun _ => false,
    bufWriteIdx := 0, bufReadIdx := 0, bufCount := 0,
    rtIsCalibrating := false, rtSampleCount := 0, rtTargetSamples := 0,
    rtThresh0 := 0 }

/-- Overwrite one ring-buffer slot's event payload. -/
def setEventAt (d : DM) (idx : ℕ) (ev : EventQ) : DM :=
  { d with bufferEvents := fun j => if j = idx then ev else d.bufferEvents j }

/-- Mirrors `update_rt_calibration` control flow: count the sample and, once
`sample_count >= target_samples`, run `finalize_rt_calibration` (which clears
the calibration flag and stores the thresholds; the stored `thresh[0]` is
taken as the oracle value `calThresh0`, its formula being verified in the
`RTCal` section). -/
def updateRtCalM (d : DM) (inp : SIn) : DM :=
  let d1 := { d with rtSampleCount := d.rtSampleCount + 1 }
  if d1.rtTargetSamples ≤ d1.rtSampleCount then
    { d1 with rtIsCalibrating := false, rtThresh0 := inp.calThresh0 }
  else d1

/-- Mirrors `determine_onset_type`: VOICED / MIXED split on the legacy
normalised high-frequency energy, UNVOICED otherwise. -/
def determineOnsetTypeQ (inp : SIn) : SOnsetType :=
  if inp.isVoiced then
    (if inp.hfNorm > 0.5 then .mixed else .voiced)
  else .unvoiced

/-- The IDLE branch of the state machine: triggers, the hierarchical F0-rise
gate with its bypasses, the realtime energy gate, and on success the
initialisation of the in-flight event.  (The branch also writes
`min_f0_since_peak` and clears `f0_has_risen`; those fields live in the
feature state outside `DM` and feed back only through later `SIn` values.) -/
def stepIdle (cfg : MConfig) (d : DM) (inp : SIn) : DM :=
  let thresholdOn := inp.threshold * cfg.hysteresisOnFactor
  let fusionThresholdOn := (0.6 : ℚ) * cfg.hysteresisOnFactor
  let voicedTrigger := decide (inp.peakRate > thresholdOn) && inp.isVoiced
  let fusionTrigger := decide (inp.fusionScore > fusionThresholdOn)
  let unvoicedTrigger := cfg.allowUnvoicedOnsets && !inp.isVoiced &&
    (decide (inp.sfNorm > cfg.unvoicedOnsetThreshold) ||
      decide (inp.hfNorm > cfg.unvoicedOnsetThreshold))
  let teoStrong := decide (inp.teoNormalized > 3)
  let lerStrong := decide (inp.currentLer > 2)
  let harmonicityStrong := decide (inp.flatnessWeber < -(0.3 : ℚ))
  let strongEvidence := decide (inp.fusionScore > 0.85) || teoStrong || lerStrong ||
    harmonicityStrong
  let timeSinceLast := d.totalSamples - d.lastEventSamples
  let enoughTimePassed := decide (timeSinceLast > cfg.minDistSamples * 2)
  let f0AllowsNewOnset :=
    if cfg.realtimeMode then true
    else inp.f0HasRisen || strongEvidence || enoughTimePassed
  let energyGatePassed :=
    if cfg.realtimeMode && !d.rtIsCalibrating then
      decide (inp.envOut > d.rtThresh0 * 3) && decide (inp.envOut > (0.001 : ℚ))
    else true
  if (voicedTrigger ||
      (fusionTrigger && (cfg.allowUnvoicedOnsets || inp.isVoiced)) ||
      unvoicedTrigger) && f0AllowsNewOnset && energyGatePassed then
    { d with
      smState := .onsetRising
      stateTimer := 0
      currentOnsetType := determineOnsetTypeQ inp
      wipEvent :=
        { timestampSamples := d.totalSamples
          timeSeconds := (d.totalSamples : ℚ) / cfg.sampleRate
          peakRate := inp.peakRate
          prSlope := 0
          energy := inp.envOut
          f0 := inp.currentF0
          deltaF0 := 0
          durationS := 0
          spectralFlux := inp.spectralFlux
          highFreqEnergy := inp.highFreqEnergy
          mfccDelta := inp.mfccDelta
          waveletScore := inp.waveletScore
          fusionScore := inp.fusionScore
          onsetType := determineOnsetTypeQ inp
          prominenceScore := 0
          isAccented := false }
      maxPeakRateInSyllable := inp.peakRate
      maxFusionScoreInSyllable := inp.fusionScore
      energyAccum := inp.envOut
      onsetTimestamp := d.totalSamples
      peakSampleOffset := 0 }
  else d

/-- The ONSET_RISING branch: track running maxima into the in-flight event,
move to NUCLEUS when the peak rate or fusion drops (against the just-updated
maxima, as in the C sequence of in-place updates) or the 50 ms limit is
reached - computing the rise slope from the updated peak offset - and abort
to COOLDOWN if voicing is lost on a VOICED onset (overriding the NUCLEUS
move, as the later `if` does in C; the rise slope already written into the
WIP event stays, exactly as in C).  The sequential C updates are rendered as
one final record built from the updated values. -/
def stepRising (cfg : MConfig) (d : DM) (inp : SIn) : DM :=
  let timer := d.stateTimer + 1
  let accum := d.energyAccum + inp.envOut
  let prNew := decide (inp.peakRate > d.maxPeakRateInSyllable)
  let maxPr := if prNew then inp.peakRate else d.maxPeakRateInSyllable
  let offset := if prNew then timer else d.peakSampleOffset
  let fuNew := decide (inp.fusionScore > d.maxFusionScoreInSyllable)
  let maxFu := if fuNew then inp.fusionScore else d.maxFusionScoreInSyllable
  let wip1 :=
    { d.wipEvent with
      peakRate := if prNew then inp.peakRate else d.wipEvent.peakRate
      fusionScore := if fuNew then inp.fusionScore else d.wipEvent.fusionScore
      spectralFlux :=
        if inp.spectralFlux > d.wipEvent.spectralFlux then inp.spectralFlux
        else d.wipEvent.spectralFlux
      highFreqEnergy :=
        if inp.highFreqEnergy > d.wipEvent.highFreqEnergy then inp.highFreqEnergy
        else d.wipEvent.highFreqEnergy
      mfccDelta :=
        if inp.mfccDelta > d.wipEvent.mfccDelta then inp.mfccDelta
        else d.wipEvent.mfccDelta
      waveletScore :=
        if inp.waveletScore > d.wipEvent.waveletScore then inp.waveletScore
        else d.wipEvent.waveletScore }
  let toNucleus := decide (inp.peakRate < maxPr * 0.5) ||
    decide (inp.fusionScore < maxFu * 0.6) || decide (timer > cfg.maxOnsetRisingSamples)
  let wip2 :=
    if toNucleus then
      { wip1 with prSlope := maxPr / (((offset : ℚ) + 1) / cfg.sampleRate + 0.0001) }
    else wip1
  let st :=
    if !inp.isVoiced && decide (d.currentOnsetType = SOnsetType.voiced) then
      SMState.cooldown
    else if toNucleus then SMState.nucleus else SMState.onsetRising
  { d with
    stateTimer := timer
    energyAccum := accum
    maxPeakRateInSyllable := maxPr
    maxFusionScoreInSyllable := maxFu
    peakSampleOffset := offset
    wipEvent := wip2
    smState := st }

/-- Push a finalised event into the prominence ring buffer; when the buffer is
full the oldest pending slot (at the read index) is overwritten and the read
index advances. -/
def pushEvent (d : DM) (ev : EventQ) : DM :=
  if d.bufCount < 16 then
    { setEventAt d d.bufWriteIdx ev with
      bufferReady := fun j => if j = d.bufWriteIdx then true else d.bufferReady j
      bufWriteIdx := (d.bufWriteIdx + 1) % 16
      bufCount := d.bufCount + 1 }
  else
    { setEventAt d d.bufWriteIdx ev with
      bufferReady := fun j => if j = d.bufWriteIdx then true else d.bufferReady j
      bufWriteIdx := (d.bufWriteIdx + 1) % 16
      bufReadIdx := (d.bufReadIdx + 1) % 16 }

/-- The NUCLEUS branch: exit on energy collapse (realtime: against the
in-flight peak energy; offline: against the in-flight peak rate), on lost
voicing for VOICED onsets, on low fusion, or on the 100 ms timeout; on exit
finalise duration / integrated energy / F0, push the event into the ring
buffer and record `last_event_samples`. -/
def stepNucleus (cfg : MConfig) (d : DM) (inp : SIn) : DM :=
  let d := { d with stateTimer := d.stateTimer + 1, energyAccum := d.energyAccum + inp.envOut }
  let energyLow :=
    if cfg.realtimeMode then
      decide (inp.envOut <
        (if d.wipEvent.energy > 0 then d.wipEvent.energy
         else d.maxFusionScoreInSyllable) * 0.2)
    else decide (inp.envOut < d.wipEvent.peakRate * 0.1)
  let voicingLost := !inp.isVoiced && decide (d.currentOnsetType = SOnsetType.voiced)
  let fusionLow := decide (inp.fusionScore < (0.4 : ℚ) * cfg.hysteresisOffFactor)
  let nucleusTimeout := decide (d.stateTimer > cfg.maxNucleusSamples)
  if energyLow || voicingLost || fusionLow || nucleusTimeout then
    let ev :=
      { d.wipEvent with
        durationS := ((d.totalSamples - d.onsetTimestamp : ℕ) : ℚ) / cfg.sampleRate
        energy := d.energyAccum
        f0 := inp.currentF0 }
    { pushEvent { d with smState := .cooldown, wipEvent := ev } ev with
      lastEventSamples := d.totalSamples }
  else d

/-- The COOLDOWN branch: back to IDLE once the state timer exceeds the
minimum syllable distance in samples. -/
def stepCooldown (cfg : MConfig) (d : DM) : DM :=
  let d := { d with stateTimer := d.stateTimer + 1 }
  if d.stateTimer > cfg.minDistSamples then { d with smState := .idle } else d

/-- One sample of `syllable_process` up to and including the state machine
(section 5): advance the sample counter, update realtime calibration, and -
unless the sample is consumed by calibration (`continue`) - run the state
machine branch for the current state. -/
def machineStep (cfg : MConfig) (d0 : DM) (inp : SIn) : DM :=
  let d := { d0 with totalSamples := d0.totalSamples + 1 }
  let d := if cfg.realtimeMode && d.rtIsCalibrating then updateRtCalM d inp else d
  if cfg.realtimeMode && d.rtIsCalibrating then d
  else
    match d.smState with
    | .idle => stepIdle cfg d inp
    | .onsetRising => stepRising cfg d inp
    | .nucleus => stepNucleus cfg d inp
    | .cooldown => stepCooldown cfg d

/-- Insert into an ascending list (the value-level effect of the ascending
bubble sort used on the gathered context F0 values). -/
def insertAsc (x : ℚ) : List ℚ → List ℚ
  | [] => [x]
  | y :: ys => if x ≤ y then x :: y :: ys else y :: insertAsc x ys

/-- Ascending sort of the gathered context F0 values. -/
def sortAsc : List ℚ → List ℚ
  | [] => []
  | x :: xs => insertAsc x (sortAsc xs)

/-- The context F0 values gathered by `calculate_delta_f0`: for each offset
`i = 1 .. context_size`, the F0 of the ready slot `context_size` places before
and after the target (ring indices modulo 16), kept when above 50 Hz.
(Faithful for `context_size <= 16`; beyond that the C code would index out of
bounds.) -/
def contextF0s (cfg : MConfig) (d : DM) (targetIdx : ℕ) : List ℚ :=
  (List.range cfg.contextSize).foldl
    (fun acc i0 =>
      let i := i0 + 1
      let prevIdx := (targetIdx + 16 - i) % 16
      let acc :=
        if d.bufferReady prevIdx && decide ((d.bufferEvents prevIdx).f0 > 50) then
          acc ++ [(d.bufferEvents prevIdx).f0]
        else acc
      let nextIdx := (targetIdx + i) % 16
      if d.bufferReady nextIdx && decide ((d.bufferEvents nextIdx).f0 > 50) then
        acc ++ [(d.bufferEvents nextIdx).f0]
      else acc)
    []

/-- Mirrors `calculate_delta_f0`: write into the target slot the difference
between its F0 and the median of the context F0 values (0 when the slot is
not ready, the context is empty, or the target F0 is below 50 Hz). -/
def calcDeltaF0 (cfg : MConfig) (d : DM) (targetIdx : ℕ) : DM :=
  if !d.bufferReady targetIdx then
    setEventAt d targetIdx { d.bufferEvents targetIdx with deltaF0 := 0 }
  else if (contextF0s cfg d targetIdx).length = 0 ||
      decide ((d.bufferEvents targetIdx).f0 < 50) then
    setEventAt d targetIdx { d.bufferEvents targetIdx with deltaF0 := 0 }
  else
    setEventAt d targetIdx
      { d.bufferEvents targetIdx with
        deltaF0 := (d.bufferEvents targetIdx).f0 -
          (sortAsc (contextF0s cfg d targetIdx)).getD
            ((contextF0s cfg d targetIdx).length / 2) 0 }

/-- The per-field context sums gathered by `calculate_prominence`. -/
structure CtxSums where
  e : ℚ
  pr : ℚ
  dur : ℚ
  slope : ℚ
  fusion : ℚ
  count : ℕ

/-- Gather energy / peak-rate / duration / slope / fusion sums over the ready
slots at offsets `1 .. context_size` on both sides of the target. -/
def ctxSums (cfg : MConfig) (d : DM) (targetIdx : ℕ) : CtxSums :=
  (List.range cfg.contextSize).foldl
    (fun acc i0 =>
      let i := i0 + 1
      let prevIdx := (targetIdx + 16 - i) % 16
      let acc :=
        if d.bufferReady prevIdx then
          { e := acc.e + (d.bufferEvents prevIdx).energy
            pr := acc.pr + (d.bufferEvents prevIdx).peakRate
            dur := acc.dur + (d.bufferEvents prevIdx).durationS
            slope := acc.slope + (d.bufferEvents prevIdx).prSlope
            fusion := acc.fusion + (d.bufferEvents prevIdx).fusionScore
            count := acc.count + 1 }
        else acc
      let nextIdx := (targetIdx + i) % 16
      if d.bufferReady nextIdx then
        { e := acc.e + (d.bufferEvents nextIdx).energy
          pr := acc.pr + (d.bufferEvents nextIdx).peakRate
          dur := acc.dur + (d.bufferEvents nextIdx).durationS
          slope := acc.slope + (d.bufferEvents nextIdx).prSlope
          fusion := acc.fusion + (d.bufferEvents nextIdx).fusionScore
          count := acc.count + 1 }
      else acc)
    { e := 0, pr := 0, dur := 0, slope := 0, fusion := 0, count := 0 }

/-- Mirrors `calculate_prominence`: ratio scores of the target against the
context averages, the clamped F0-change bonus, the clamped stress integral
`fusion x duration`, the F0 absolute-level bonus, combined with the fixed
weights; 0 when the target slot is not ready, 0.5 when it has no ready
context. -/
def calcProminence (cfg : MConfig) (d : DM) (targetIdx : ℕ) : ℚ :=
  let t := d.bufferEvents targetIdx
  if !d.bufferReady targetIdx then 0
  else
    let s := ctxSums cfg d targetIdx
    if s.count = 0 then 0.5
    else
      let avgE := s.e / s.count
      let avgPr := s.pr / s.count
      let avgDur := s.dur / s.count
      let avgSlope := s.slope / s.count
      let avgFusion := s.fusion / s.count
      let eScore := if t.energy > 0 then t.energy / (avgE + 0.0001) else 0
      let prScore := if t.peakRate > 0 then t.peakRate / (avgPr + 0.0001) else 0
      let dScore := if t.durationS > 0 then t.durationS / (avgDur + 0.0001) else 0
      let slopeScore := if t.prSlope > 0 then t.prSlope / (avgSlope + 0.0001) else 0
      let fusionScoreRel :=
        if t.fusionScore > 0 then t.fusionScore / (avgFusion + 0.0001) else 0
      let f0Bonus0 := if t.deltaF0 > 0 then t.deltaF0 / 50 else 0
      let f0Bonus := if f0Bonus0 > 1 then 1 else f0Bonus0
      let avgStress := avgFusion * avgDur
      let stressRel0 :=
        if avgStress > 0.001 then t.fusionScore * t.durationS / avgStress else 1
      let stressRel := if stressRel0 > 3 then 3 else stressRel0
      let f0LevelBonus :=
        if t.f0 > 60 then
          (if t.f0 / 150 > 1.1 then
            (if (t.f0 / 150 - 1) * 0.5 > 0.15 then 0.15 else (t.f0 / 150 - 1) * 0.5)
          else 0)
        else 0
      0.10 * eScore + 0.10 * prScore + 0.18 * dScore + 0.08 * slopeScore +
        0.18 * fusionScoreRel + 0.13 * stressRel + 0.10 * (1 + f0Bonus) +
        0.13 * (1 + f0LevelBonus)

/-- The emission loop shared by `syllable_process` (required context
`context_needed`, accent threshold 0.9) and `syllable_flush` (required
context 0, accent threshold 1.2): while more than `ctxNeeded` events are
pending and output capacity remains, compute the front event's delta-F0 and
prominence, set its accent flag, emit it, clear its ready flag and advance
the read index.  The capacity argument is the remaining room in the caller's
output array.  One iteration of the loop body (delta-F0, prominence, accent
flag, emit, clear ready flag, advance read index) is `popFront`. -/
def popFront (cfg : MConfig) (accentThr : ℚ) (d : DM) : EventQ × DM :=
  let idx := d.bufReadIdx
  let d1 := calcDeltaF0 cfg d idx
  let score := calcProminence cfg d1 idx
  let ev := { d1.bufferEvents idx with
              prominenceScore := score
              isAccented := decide (score > accentThr) }
  (ev,
    { setEventAt d1 idx ev with
      bufferReady := fun j => if j = idx then false else d1.bufferReady j
      bufReadIdx := (idx + 1) % 16
      bufCount := d1.bufCount - 1 })

/-- The loop itself; the body of one iteration is `popFront`. -/
def emitLoop (cfg : MConfig) (ctxNeeded : ℕ) (accentThr : ℚ) :
    DM → ℕ → List EventQ × DM
  | d, 0 => ([], d)
  | d, cap + 1 =>
    if ctxNeeded < d.bufCount then
      let p := popFront cfg accentThr d
      let rest := emitLoop cfg ctxNeeded accentThr p.2 cap
      (p.1 :: rest.1, rest.2)
    else ([], d)

/-- The trailing context required before `syllable_process` emits
(`context_needed`): 0 in realtime mode, `context_size` offline. -/
def contextNeeded (cfg : MConfig) : ℕ :=
  if cfg.realtimeMode then 0 else cfg.contextSize

/-- The per-sample loop of `syllable_process`, carrying the events written so
far: run the state machine for the sample and - unless the sample was
consumed by calibration (`continue`) - drain the emission loop into the
remaining output capacity. -/
def processLoop (cfg : MConfig) (maxEvents : ℕ) :
    List EventQ → DM → List SIn → List EventQ × DM
  | written, d, [] => (written, d)
  | written, d, inp :: rest =>
    let d1 := machineStep cfg d inp
    if cfg.realtimeMode && d1.rtIsCalibrating then
      processLoop cfg maxEvents written d1 rest
    else
      let r := emitLoop cfg (contextNeeded cfg) 0.9 d1 (maxEvents - written.length)
      processLoop cfg maxEvents (written ++ r.1) r.2 rest

/-- Mirrors `syllable_process` on a chunk of samples. -/
def processM (cfg : MConfig) (d : DM) (ins : List SIn) (maxEvents : ℕ) :
    List EventQ × DM :=
  processLoop cfg maxEvents [] d ins

/-- Mirrors `syllable_flush`: drain every pending event (no context
requirement), accent threshold 1.2. -/
def flushM (cfg : MConfig) (d : DM) (maxEvents : ℕ) : List EventQ × DM :=
  emitLoop cfg 0 1.2 d maxEvents

/-- One call on the detector: either `syllable_process` on a chunk of samples
or `syllable_flush`, each with its output-array capacity. -/
inductive DCall
  | proc (ins : List SIn) (maxEvents : ℕ)
  | flush (maxEvents : ℕ)

/-- Run a sequence of `process` / `flush` calls, concatenating the emitted
events in emission order. -/
def runCalls (cfg : MConfig) (d : DM) : List DCall → List EventQ × DM
  | [] => ([], d)
  | c :: rest =>
    let r :=
      match c with
      | .proc ins cap => processM cfg d ins cap
      | .flush cap => flushM cfg d cap
    let r2 := runCalls cfg r.2 rest
    (r.1 ++ r2.1, r2.2)

/-- While realtime calibration is running and does not finalise at this
sample, a processed sample only advances the sample counter and the
calibration counter (`continue` skips the state machine and the emission
loop). -/
lemma machineStep_calibrating (cfg : MConfig) (d : DM) (inp : SIn)
    (hrt : cfg.realtimeMode = true) (hcal : d.rtIsCalibrating = true)
    (hlt : d.rtSampleCount + 1 < d.rtTargetSamples) :
    machineStep cfg d inp =
      { d with totalSamples := d.totalSamples + 1,
               rtSampleCount := d.rtSampleCount + 1 } := by
  rw [machineStep]
  simp only [hrt, hcal, Bool.true_and, if_true]
  rw [updateRtCalM]
  simp only [hcal]
  rw [if_neg (by omega : ¬ d.rtTargetSamples ≤ d.rtSampleCount + 1)]
  simp [hcal]

/-- Auxiliary induction for C3 over the per-sample loop. -/
lemma processLoop_calibrating (cfg : MConfig) (hrt : cfg.realtimeMode = true) :
    ∀ (ins : List SIn) (written : List EventQ) (d : DM) (cap : ℕ),
      d.rtIsCalibrating = true →
      d.rtSampleCount + ins.length < d.rtTargetSamples →
      processLoop cfg cap written d ins =
        (written,
          { d with totalSamples := d.totalSamples + ins.length,
                   rtSampleCount := d.rtSampleCount + ins.length })
  | [], written, d, cap, hcal, _ => by simp [processLoop]
  | inp :: rest, written, d, cap, hcal, hlen => by
    have hlt : d.rtSampleCount + 1 < d.rtTargetSamples := by
      have := hlen
      simp only [List.length_cons] at this
      omega
    have hstep := machineStep_calibrating cfg d inp hrt hcal hlt
    rw [processLoop, hstep]
    rw [if_pos (by simp [hrt, hcal])]
    have hcal2 : ({ d with
        totalSamples := d.totalSamples + 1
        rtSampleCount := d.rtSampleCount + 1 } : DM).rtIsCalibrating = true := hcal
    have hlen2 : ({ d with
        totalSamples := d.totalSamples + 1
        rtSampleCount := d.rtSampleCount + 1 } : DM).rtSampleCount + rest.length <
        ({ d with
          totalSamples := d.totalSamples + 1
          rtSampleCount := d.rtSampleCount + 1 } : DM).rtTargetSamples := by
      show d.rtSampleCount + 1 + rest.length < d.rtTargetSamples
      simp only [List.length_cons] at hlen
      omega
    have hrec := processLoop_calibrating cfg hrt rest written
      { d with
        totalSamples := d.totalSamples + 1
        rtSampleCount := d.rtSampleCount + 1 } cap hcal2 hlen2
    rw [hrec]
    have h1 : d.totalSamples + 1 + rest.length = d.totalSamples + (inp :: rest).length := by
      simp only [List.length_cons]; omega
    have h2 : d.rtSampleCount + 1 + rest.length = d.rtSampleCount + (inp :: rest).length := by
      simp only [List.length_cons]; omega
    simp [h1, h2]

/-- C3: while `is_calibrating()` holds throughout a realtime-mode `process`
call (calibration does not finalise during the call), the call emits no
events and leaves the whole machine state unchanged except for the sample and
calibration counters: the state machine does not advance. -/
theorem C3_calibration_quiescence (cfg : MConfig) (d : DM) (ins : List SIn) (cap : ℕ)
    (hrt : cfg.realtimeMode = true) (hcal : d.rtIsCalibrating = true)
    (hlen : d.rtSampleCount + ins.length < d.rtTargetSamples) :
    processM cfg d ins cap =
      ([], { d with totalSamples := d.totalSamples + ins.length,
                    rtSampleCount := d.rtSampleCount + ins.length }) := by
  rw [processM]
  exact processLoop_calibrating cfg hrt ins [] d cap hcal hlen

/-- The all-zero per-sample input. -/
def sZero : SIn :=
  { peakRate := 0, envOut := 0, fusionScore := 0, spectralFlux := 0,
    highFreqEnergy := 0, mfccDelta := 0, waveletScore := 0, currentF0 := 0,
    isVoiced := false, sfNorm := 0, hfNorm := 0, f0HasRisen := false,
    teoNormalized := 0, currentLer := 0, flatnessWeber := 0, threshold := 0,
    calThresh0 := 0 }

/-- Concrete realtime configuration used by the machine witnesses:
44100 Hz defaults. -/
def cfgRT : MConfig :=
  { sampleRate := 44100, minDistSamples := 6615, maxOnsetRisingSamples := 2205,
    maxNucleusSamples := 4410, hysteresisOnFactor := 1.2,
    hysteresisOffFactor := 0.8, unvoicedOnsetThreshold := 0.5,
    allowUnvoicedOnsets := true, realtimeMode := true, contextSize := 2 }

/-- Witness for C3: a freshly recalibrated detector (target 10 samples)
processing 2 samples returns no events and keeps calibrating. -/
theorem C3_calibration_quiescence_witness :
    cfgRT.realtimeMode = true ∧
    ({ initDM with rtIsCalibrating := true, rtTargetSamples := 10 } : DM).rtIsCalibrating
      = true ∧
    ({ initDM with rtIsCalibrating := true, rtTargetSamples := 10 } : DM).rtSampleCount +
      ([sZero, sZero] : List SIn).length <
      ({ initDM with rtIsCalibrating := true, rtTargetSamples := 10 } : DM).rtTargetSamples ∧
    processM cfgRT { initDM with rtIsCalibrating := true, rtTargetSamples := 10 }
        [sZero, sZero] 4 =
      ([], { ({ initDM with rtIsCalibrating := true, rtTargetSamples := 10 } : DM) with
              totalSamples := 0 + 2, rtSampleCount := 0 + 2 }) := by
  refine ⟨rfl, rfl, by decide, ?_⟩
  exact C3_calibration_quiescence cfgRT
    { initDM with rtIsCalibrating := true, rtTargetSamples := 10 }
    [sZero, sZero] 4 rfl rfl (by decide)

/-- `calculate_delta_f0` only rewrites the target slot's event payload. -/
lemma calcDeltaF0_eq_set (cfg : MConfig) (d : DM) (i : ℕ) :
    ∃ ev, calcDeltaF0 cfg d i = setEventAt d i ev := by
  rw [calcDeltaF0]
  split
  · exact ⟨_, rfl⟩
  · split
    · exact ⟨_, rfl⟩
    · exact ⟨_, rfl⟩

@[simp] lemma setEventAt_bufCount (d : DM) (i : ℕ) (ev : EventQ) :
    (setEventAt d i ev).bufCount = d.bufCount := rfl

@[simp] lemma setEventAt_bufReadIdx (d : DM) (i : ℕ) (ev : EventQ) :
    (setEventAt d i ev).bufReadIdx = d.bufReadIdx := rfl

@[simp] lemma calcDeltaF0_bufCount (cfg : MConfig) (d : DM) (i : ℕ) :
    (calcDeltaF0 cfg d i).bufCount = d.bufCount := by
  obtain ⟨ev, hev⟩ := calcDeltaF0_eq_set cfg d i
  rw [hev, setEventAt_bufCount]

@[simp] lemma calcDeltaF0_bufReadIdx (cfg : MConfig) (d : DM) (i : ℕ) :
    (calcDeltaF0 cfg d i).bufReadIdx = d.bufReadIdx := by
  obtain ⟨ev, hev⟩ := calcDeltaF0_eq_set cfg d i
  rw [hev, setEventAt_bufReadIdx]

/-- Exact emission count and final pending count of the emission loop: it
pops `min cap (buf_count - ctxNeeded)` events off the front of the ring. -/
lemma emitLoop_stats (cfg : MConfig) (ctx : ℕ) (thr : ℚ) :
    ∀ (cap : ℕ) (d : DM),
      (emitLoop cfg ctx thr d cap).1.length = min cap (d.bufCount - ctx) ∧
      (emitLoop cfg ctx thr d cap).2.bufCount = d.bufCount - min cap (d.bufCount - ctx)
  | 0, d => by simp [emitLoop]
  | cap + 1, d => by
    rw [emitLoop]
    split
    · next h =>
      have ih := emitLoop_stats cfg ctx thr cap (popFront cfg thr d).2
      have hc2 : (popFront cfg thr d).2.bufCount = d.bufCount - 1 := by
        show (calcDeltaF0 cfg d d.bufReadIdx).bufCount - 1 = d.bufCount - 1
        rw [calcDeltaF0_bufCount]
      rw [hc2] at ih
      simp only [List.length_cons]
      rw [ih.1, ih.2]
      constructor
      · omega
      · omega
    · next h =>
      simp only [List.length_nil]
      omega

/-- C6: `process` emits from the ring buffer only while more than
`context_needed` events are pending - so after the emission loop at least
`min(buf_count, context_needed)` events remain as trailing context for
everything emitted - where `context_needed` is 0 in realtime mode and
`context_size` offline; `flush` (given enough output capacity) emits every
pending event unconditionally. -/
theorem C6_emission_context (cfg : MConfig) (d : DM) (cap : ℕ) :
    (emitLoop cfg (contextNeeded cfg) (0.9 : ℚ) d cap).1.length =
      min cap (d.bufCount - contextNeeded cfg) ∧
    min d.bufCount (contextNeeded cfg) ≤
      (emitLoop cfg (contextNeeded cfg) (0.9 : ℚ) d cap).2.bufCount ∧
    contextNeeded cfg = (if cfg.realtimeMode then 0 else cfg.contextSize) ∧
    (d.bufCount ≤ cap →
      (flushM cfg d cap).1.length = d.bufCount ∧ (flushM cfg d cap).2.bufCount = 0) := by
  have h1 := emitLoop_stats cfg (contextNeeded cfg) 0.9 cap d
  have h2 := emitLoop_stats cfg 0 1.2 cap d
  refine ⟨h1.1, ?_, rfl, fun hc => ⟨?_, ?_⟩⟩
  · rw [h1.2]
    omega
  · rw [flushM, h2.1]
    omega
  · rw [flushM, h2.2]
    omega

/-- Concrete offline configuration used by the machine witnesses: 44100 Hz
defaults (`min_syllable_dist_ms = 150`, hence 6615 samples; context size 2). -/
def cfgOff : MConfig :=
  { sampleRate := 44100, minDistSamples := 6615, maxOnsetRisingSamples := 2205,
    maxNucleusSamples := 4410, hysteresisOnFactor := 1.2,
    hysteresisOffFactor := 0.8, unvoicedOnsetThreshold := 0.5,
    allowUnvoicedOnsets := true, realtimeMode := false, contextSize := 2 }

/-- A ring buffer holding four pending events (read index 0, write index 4),
with distinct timestamps. -/
def dFour : DM :=
  { initDM with
    totalSamples := 40000
    bufferEvents := fun j => { EventQ.zero with timestampSamples := 7000 * j }
    bufferReady := fun j => decide (j < 4)
    bufWriteIdx := 4
    bufReadIdx := 0
    bufCount := 4 }

/-- Witness for C6 at `dFour` under the offline default configuration:
the `process` emission loop with capacity 10 emits 2 of the 4 pending events
(keeping `context_size = 2` behind), and `flush` emits all 4. -/
theorem C6_emission_context_witness :
    (emitLoop cfgOff (contextNeeded cfgOff) (0.9 : ℚ) dFour 10).1.length =
      min 10 (dFour.bufCount - contextNeeded cfgOff) ∧
    min dFour.bufCount (contextNeeded cfgOff) ≤
      (emitLoop cfgOff (contextNeeded cfgOff) (0.9 : ℚ) dFour 10).2.bufCount ∧
    dFour.bufCount ≤ 10 ∧
    (flushM cfgOff dFour 10).1.length = dFour.bufCount ∧
    (flushM cfgOff dFour 10).2.bufCount = 0 ∧
    (emitLoop cfgOff (contextNeeded cfgOff) (0.9 : ℚ) dFour 10).1.length = 2 := by
  have h := C6_emission_context cfgOff dFour 10
  have hc : dFour.bufCount ≤ 10 := by decide
  refine ⟨h.1, h.2.1, hc, (h.2.2.2 hc).1, (h.2.2.2 hc).2, ?_⟩
  rw [h.1]
  decide

/-- Every event the emission loop outputs carries an accent flag equal to the
comparison of its own (just computed) prominence score against the loop's
accent threshold. -/
lemma popFront_accent_flag (cfg : MConfig) (thr : ℚ) (d : DM) :
    (popFront cfg thr d).1.isAccented =
      decide ((popFront cfg thr d).1.prominenceScore > thr) := rfl

lemma emitLoop_accent (cfg : MConfig) (ctx : ℕ) (thr : ℚ) :
    ∀ (cap : ℕ) (d : DM) (e : EventQ), e ∈ (emitLoop cfg ctx thr d cap).1 →
      (e.isAccented = true ↔ thr < e.prominenceScore)
  | 0, _, e, h => by simp [emitLoop] at h
  | cap + 1, d, e, h => by
    rw [emitLoop] at h
    split at h
    · simp only [List.mem_cons] at h
      rcases h with he | he
      · subst he
        rw [popFront_accent_flag]
        simp [gt_iff_lt]
      · exact emitLoop_accent cfg ctx thr cap _ e he
    · simp at h

/-- Lift the accent property through the per-sample loop of
`syllable_process`. -/
lemma processLoop_accent (cfg : MConfig) (cap : ℕ) :
    ∀ (ins : List SIn) (written : List EventQ) (d : DM) (e : EventQ),
      (∀ x ∈ written, (x.isAccented = true ↔ (0.9 : ℚ) < x.prominenceScore)) →
      e ∈ (processLoop cfg cap written d ins).1 →
      (e.isAccented = true ↔ (0.9 : ℚ) < e.prominenceScore)
  | [], written, _, e, hw, he => hw e (by simpa [processLoop] using he)
  | inp :: rest, written, d, e, hw, he => by
    rw [processLoop] at he
    split at he
    · exact processLoop_accent cfg cap rest written _ e hw he
    · refine processLoop_accent cfg cap rest _ _ e ?_ he
      intro x hx
      rcases List.mem_append.mp hx with h1 | h1
      · exact hw x h1
      · exact emitLoop_accent cfg (contextNeeded cfg) 0.9 _ _ x h1

/-- C9: every event emitted by `process` is flagged accented exactly when its
prominence score strictly exceeds 0.9, and every event emitted by `flush` is
flagged accented exactly when its prominence score strictly exceeds 1.2. -/
theorem C9_accent_thresholds (cfg : MConfig) :
    (∀ (d : DM) (ins : List SIn) (cap : ℕ) (e : EventQ),
      e ∈ (processM cfg d ins cap).1 →
      (e.isAccented = true ↔ (0.9 : ℚ) < e.prominenceScore)) ∧
    (∀ (d : DM) (cap : ℕ) (e : EventQ),
      e ∈ (flushM cfg d cap).1 →
      (e.isAccented = true ↔ (1.2 : ℚ) < e.prominenceScore)) := by
  constructor
  · intro d ins cap e he
    exact processLoop_accent cfg cap ins [] d e (by intro x hx; simp at hx) he
  · intro d cap e he
    exact emitLoop_accent cfg 0 1.2 cap d e he

/-- The first event emitted by `process` from `dFour` (under the offline
default configuration, capacity 10). -/
def c9ProcEv : EventQ := ((processM cfgOff dFour [sZero] 10).1).getD 0 EventQ.zero

/-- The first event emitted by `flush` from `dFour`. -/
def c9FlushEv : EventQ := ((flushM cfgOff dFour 10).1).getD 0 EventQ.zero

/-- The head (with default) of a nonempty list is a member. -/
lemma getD_zero_mem {α : Type} (l : List α) (z : α) (h : l ≠ []) : l.getD 0 z ∈ l := by
  cases l with
  | nil => exact absurd rfl h
  | cons a t => exact List.mem_cons_self a t

/-- The IDLE branch never touches the ring buffer's event count. -/
lemma stepIdle_bufCount (cfg : MConfig) (d : DM) (inp : SIn) :
    (stepIdle cfg d inp).bufCount = d.bufCount := by
  rw [stepIdle]
  split_ifs <;> rfl

/-- Witness for C9: concrete emissions from `dFour` (two events surface in the
`process` call because two stay as context; all four surface in `flush`), with
both membership hypotheses discharged through the emission-count lemma. -/
theorem C9_accent_thresholds_witness :
    c9ProcEv ∈ (processM cfgOff dFour [sZero] 10).1 ∧
    (c9ProcEv.isAccented = true ↔ (0.9 : ℚ) < c9ProcEv.prominenceScore) ∧
    c9FlushEv ∈ (flushM cfgOff dFour 10).1 ∧
    (c9FlushEv.isAccented = true ↔ (1.2 : ℚ) < c9FlushEv.prominenceScore) := by
  have hms : machineStep cfgOff dFour sZero =
      stepIdle cfgOff { dFour with totalSamples := dFour.totalSamples + 1 } sZero := rfl
  have hd1 : (machineStep cfgOff dFour sZero).bufCount = 4 := by
    rw [hms, stepIdle_bufCount]
    rfl
  have hproc : processM cfgOff dFour [sZero] 10 =
      ((emitLoop cfgOff (contextNeeded cfgOff) 0.9 (machineStep cfgOff dFour sZero) 10).1,
        (emitLoop cfgOff (contextNeeded cfgOff) 0.9 (machineStep cfgOff dFour sZero) 10).2) := by
    rw [processM, processLoop]
    rw [if_neg (by simp [cfgOff])]
    rw [processLoop]
    simp
  have hplen : (processM cfgOff dFour [sZero] 10).1.length = 2 := by
    rw [hproc]
    have := (emitLoop_stats cfgOff (contextNeeded cfgOff) 0.9 10 (machineStep cfgOff dFour sZero)).1
    rw [this, hd1]
    rfl
  have hflen : (flushM cfgOff dFour 10).1.length = 4 := by
    rw [flushM]
    have := (emitLoop_stats cfgOff 0 1.2 10 dFour).1
    rw [this]
    rfl
  have h1 : c9ProcEv ∈ (processM cfgOff dFour [sZero] 10).1 :=
    getD_zero_mem _ _ (by intro hnil; rw [hnil] at hplen; simp at hplen)
  have h2 : c9FlushEv ∈ (flushM cfgOff dFour 10).1 :=
    getD_zero_mem _ _ (by intro hnil; rw [hnil] at hflen; simp at hflen)
  exact ⟨h1, (C9_accent_thresholds cfgOff).1 dFour [sZero] 10 c9ProcEv h1,
    h2, (C9_accent_thresholds cfgOff).2 dFour 10 c9FlushEv h2⟩

/-! ### Timestamp ordering (C2): invariant infrastructure -/

/-- The pending events of the ring buffer in FIFO order: slots
`read_idx, read_idx + 1, ..., read_idx + count - 1`, modulo 16. -/
def pendingList (d : DM) : List EventQ :=
  (List.range d.bufCount).map fun j => d.bufferEvents ((d.bufReadIdx + j) % 16)

/-- The pending timestamps in FIFO order. -/
def pendingTs (d : DM) : List ℕ :=
  (pendingList d).map EventQ.timestampSamples

/-- Well-formedness of the ring indices: the write index sits `count` slots
after the read index. -/
def RingInv (d : DM) : Prop :=
  d.bufReadIdx < 16 ∧ d.bufCount ≤ 16 ∧ d.bufWriteIdx = (d.bufReadIdx + d.bufCount) % 16

/-- Separation required between syllable timestamps: a later recorded onset is
at least `minDistSamples + 2` samples after an earlier one (the cooldown
consumes `minDistSamples + 1` samples after the earlier onset, and a new
trigger needs one more sample). -/
def gapRel (cfg : MConfig) (a b : ℕ) : Prop :=
  a + cfg.minDistSamples + 2 ≤ b

/-- Book-keeping tied to the current state-machine state, over the history
`H` of all recorded timestamps (emitted plus pending):

* IDLE - every recorded timestamp is at least `minDist + 1` samples old, so a
  trigger at the next sample keeps the gap;
* ONSET_RISING / NUCLEUS - the in-flight onset is `minDist + 2` after every
  recorded timestamp, the timer counts samples since the onset, and the WIP
  event carries the onset timestamp;
* COOLDOWN - recorded timestamps are at most the (possibly just pushed)
  onset, and the timer counts samples since the onset. -/
def StateOk (cfg : MConfig) (H : List ℕ) (d : DM) : Prop :=
  (d.smState = .idle → ∀ t ∈ H, t + cfg.minDistSamples + 1 ≤ d.totalSamples) ∧
  ((d.smState = .onsetRising ∨ d.smState = .nucleus) →
    (∀ t ∈ H, gapRel cfg t d.onsetTimestamp) ∧
    d.totalSamples = d.onsetTimestamp + d.stateTimer ∧
    d.wipEvent.timestampSamples = d.onsetTimestamp) ∧
  (d.smState = .cooldown →
    (∀ t ∈ H, t ≤ d.onsetTimestamp) ∧
    d.totalSamples = d.onsetTimestamp + d.stateTimer)

/-- The main invariant, relative to the timestamps `ets` of the events emitted
so far. -/
def Inv (cfg : MConfig) (ets : List ℕ) (d : DM) : Prop :=
  RingInv d ∧ d.rtIsCalibrating = false ∧
  (ets ++ pendingTs d).Pairwise (gapRel cfg) ∧
  StateOk cfg (ets ++ pendingTs d) d

/-- `pendingTs` only looks at the buffer contents, read index and count. -/
lemma pendingTs_congr {d d' : DM} (h1 : d'.bufferEvents = d.bufferEvents)
    (h2 : d'.bufReadIdx = d.bufReadIdx) (h3 : d'.bufCount = d.bufCount) :
    pendingTs d' = pendingTs d := by
  simp [pendingTs, pendingList, h1, h2, h3]

/-- Ring-buffer frame of the IDLE branch. -/
lemma stepIdle_ring_frame (cfg : MConfig) (d : DM) (inp : SIn) :
    (stepIdle cfg d inp).bufferEvents = d.bufferEvents ∧
    (stepIdle cfg d inp).bufReadIdx = d.bufReadIdx ∧
    (stepIdle cfg d inp).bufWriteIdx = d.bufWriteIdx ∧
    (stepIdle cfg d inp).bufCount = d.bufCount ∧
    (stepIdle cfg d inp).rtIsCalibrating = d.rtIsCalibrating ∧
    (stepIdle cfg d inp).totalSamples = d.totalSamples ∧
    (stepIdle cfg d inp).lastEventSamples = d.lastEventSamples := by
  rw [stepIdle]
  split_ifs <;> exact ⟨rfl, rfl, rfl, rfl, rfl, rfl, rfl⟩

/-- The IDLE branch either leaves the state unchanged or opens an onset whose
timestamp, timer and WIP event are the current sample. -/
lemma stepIdle_outcome (cfg : MConfig) (d : DM) (inp : SIn) :
    stepIdle cfg d inp = d ∨
    ((stepIdle cfg d inp).smState = .onsetRising ∧
      (stepIdle cfg d inp).onsetTimestamp = d.totalSamples ∧
      (stepIdle cfg d inp).stateTimer = 0 ∧
      (stepIdle cfg d inp).wipEvent.timestampSamples = d.totalSamples) := by
  rw [stepIdle]
  split_ifs <;> first
    | exact Or.inl rfl
    | exact Or.inr ⟨rfl, rfl, rfl, rfl⟩

/-- Ring-buffer and bookkeeping frame of the ONSET_RISING branch. -/
lemma stepRising_frame (cfg : MConfig) (d : DM) (inp : SIn) :
    (stepRising cfg d inp).bufferEvents = d.bufferEvents ∧
    (stepRising cfg d inp).bufReadIdx = d.bufReadIdx ∧
    (stepRising cfg d inp).bufWriteIdx = d.bufWriteIdx ∧
    (stepRising cfg d inp).bufCount = d.bufCount ∧
    (stepRising cfg d inp).rtIsCalibrating = d.rtIsCalibrating ∧
    (stepRising cfg d inp).totalSamples = d.totalSamples ∧
    (stepRising cfg d inp).onsetTimestamp = d.onsetTimestamp ∧
    (stepRising cfg d inp).stateTimer = d.stateTimer + 1 ∧
    (stepRising cfg d inp).wipEvent.timestampSamples = d.wipEvent.timestampSamples ∧
    (stepRising cfg d inp).lastEventSamples = d.lastEventSamples := by
  rw [stepRising]
  split_ifs <;>
    exact ⟨rfl, rfl, rfl, rfl, rfl, rfl, rfl, rfl, rfl, rfl⟩

/-- The ONSET_RISING branch ends in ONSET_RISING, NUCLEUS or COOLDOWN. -/
lemma stepRising_state (cfg : MConfig) (d : DM) (inp : SIn) :
    (stepRising cfg d inp).smState = .onsetRising ∨
    (stepRising cfg d inp).smState = .nucleus ∨
    (stepRising cfg d inp).smState = .cooldown := by
  rw [stepRising]
  split_ifs <;> simp

/-- Frame of the COOLDOWN branch. -/
lemma stepCooldown_frame (cfg : MConfig) (d : DM) :
    (stepCooldown cfg d).bufferEvents = d.bufferEvents ∧
    (stepCooldown cfg d).bufReadIdx = d.bufReadIdx ∧
    (stepCooldown cfg d).bufWriteIdx = d.bufWriteIdx ∧
    (stepCooldown cfg d).bufCount = d.bufCount ∧
    (stepCooldown cfg d).rtIsCalibrating = d.rtIsCalibrating ∧
    (stepCooldown cfg d).totalSamples = d.totalSamples ∧
    (stepCooldown cfg d).onsetTimestamp = d.onsetTimestamp ∧
    (stepCooldown cfg d).stateTimer = d.stateTimer + 1 := by
  rw [stepCooldown]
  split_ifs <;> exact ⟨rfl, rfl, rfl, rfl, rfl, rfl, rfl, rfl⟩

/-- The COOLDOWN branch either keeps the state (timer not yet past the
minimum distance) or moves to IDLE (timer strictly past it). -/
lemma stepCooldown_state (cfg : MConfig) (d : DM) :
    ((stepCooldown cfg d).smState = d.smState ∧
      ¬ d.stateTimer + 1 > cfg.minDistSamples) ∨
    ((stepCooldown cfg d).smState = .idle ∧ d.stateTimer + 1 > cfg.minDistSamples) := by
  rw [stepCooldown]
  split_ifs with h
  · exact Or.inr ⟨rfl, h⟩
  · exact Or.inl ⟨rfl, h⟩

/-- Pushing preserves well-formedness of the ring indices. -/
lemma pushEvent_ring (d : DM) (ev : EventQ) (h : RingInv d) :
    RingInv (pushEvent d ev) := by
  obtain ⟨h1, h2, h3⟩ := h
  rw [pushEvent]
  split_ifs with hc
  · refine ⟨h1, ?_, ?_⟩
    · show d.bufCount + 1 ≤ 16
      omega
    · show (d.bufWriteIdx + 1) % 16 = (d.bufReadIdx + (d.bufCount + 1)) % 16
      omega
  · refine ⟨?_, ?_, ?_⟩
    · show (d.bufReadIdx + 1) % 16 < 16
      omega
    · show d.bufCount ≤ 16
      omega
    · show (d.bufWriteIdx + 1) % 16 = ((d.bufReadIdx + 1) % 16 + d.bufCount) % 16
      omega

/-- Pushing appends the event at the back of the FIFO; when the ring is full
the oldest pending event is dropped first. -/
lemma pendingList_push (d : DM) (ev : EventQ) (h : RingInv d) :
    pendingList (pushEvent d ev) =
      (if d.bufCount < 16 then pendingList d else (pendingList d).tail) ++ [ev] := by
  obtain ⟨h1, h2, h3⟩ := h
  rw [pushEvent]
  split_ifs with hc
  · show (List.range (d.bufCount + 1)).map
        (fun j => if (d.bufReadIdx + j) % 16 = d.bufWriteIdx then ev
          else d.bufferEvents ((d.bufReadIdx + j) % 16)) =
      pendingList d ++ [ev]
    rw [List.range_succ, List.map_append, List.map_singleton]
    congr 1
    · rw [pendingList]
      apply List.map_congr_left
      intro j hj
      have hjlt : j < d.bufCount := List.mem_range.mp hj
      rw [if_neg]
      rw [h3]
      omega
    · rw [if_pos]
      rw [h3]
  · have hc16 : d.bufCount = 16 := by omega
    show (List.range d.bufCount).map
        (fun j => if ((d.bufReadIdx + 1) % 16 + j) % 16 = d.bufWriteIdx then ev
          else d.bufferEvents (((d.bufReadIdx + 1) % 16 + j) % 16)) =
      (pendingList d).tail ++ [ev]
    have htail : (pendingList d).tail =
        (List.range 15).map fun j => d.bufferEvents ((d.bufReadIdx + (j + 1)) % 16) := by
      rw [pendingList, hc16]
      rw [show (16 : ℕ) = 15 + 1 from rfl, List.range_succ_eq_map]
      simp [List.map_map, Function.comp]
    rw [hc16, htail]
    rw [show (16 : ℕ) = 15 + 1 from rfl, List.range_succ, List.map_append,
      List.map_singleton]
    congr 1
    · apply List.map_congr_left
      intro j hj
      have hjlt : j < 15 := List.mem_range.mp hj
      rw [if_neg, show ((d.bufReadIdx + 1) % 16 + j) % 16 = (d.bufReadIdx + (j + 1)) % 16
        by omega]
      rw [h3, hc16]
      omega
    · rw [if_pos]
      rw [h3, hc16]
      omega

/-- Timestamp version of `pendingList_push`. -/
lemma pendingTs_push (d : DM) (ev : EventQ) (h : RingInv d) :
    pendingTs (pushEvent d ev) =
      (if d.bufCount < 16 then pendingTs d else (pendingTs d).tail) ++
        [ev.timestampSamples] := by
  rw [pendingTs, pendingList_push d ev h, List.map_append, List.map_singleton]
  congr 1
  split_ifs
  · rfl
  · rw [pendingTs]
    exact List.map_tail EventQ.timestampSamples (pendingList d)

/-- The push branch does not change the count when the ring is full. -/
lemma pushEvent_bufCount (d : DM) (ev : EventQ) :
    (pushEvent d ev).bufCount = (if d.bufCount < 16 then d.bufCount + 1 else d.bufCount) := by
  rw [pushEvent]
  split_ifs <;> rfl

/-- The NUCLEUS branch either just ticks, or finalises the in-flight event,
pushes it and enters COOLDOWN. -/
lemma stepNucleus_outcome (cfg : MConfig) (d : DM) (inp : SIn) :
    stepNucleus cfg d inp =
      { d with stateTimer := d.stateTimer + 1, energyAccum := d.energyAccum + inp.envOut } ∨
    stepNucleus cfg d inp =
      { pushEvent
          { d with
            stateTimer := d.stateTimer + 1
            energyAccum := d.energyAccum + inp.envOut
            smState := .cooldown
            wipEvent :=
              { d.wipEvent with
                durationS := ((d.totalSamples - d.onsetTimestamp : ℕ) : ℚ) / cfg.sampleRate
                energy := d.energyAccum + inp.envOut
                f0 := inp.currentF0 } }
          { d.wipEvent with
            durationS := ((d.totalSamples - d.onsetTimestamp : ℕ) : ℚ) / cfg.sampleRate
            energy := d.energyAccum + inp.envOut
            f0 := inp.currentF0 }
        with lastEventSamples := d.totalSamples } := by
  rw [stepNucleus]
  split_ifs <;> first | exact Or.inl rfl | exact Or.inr rfl

/-- Non-buffer frame of a slot overwrite. -/
lemma setEventAt_frame (d : DM) (i : ℕ) (ev : EventQ) :
    (setEventAt d i ev).smState = d.smState ∧
    (setEventAt d i ev).totalSamples = d.totalSamples ∧
    (setEventAt d i ev).onsetTimestamp = d.onsetTimestamp ∧
    (setEventAt d i ev).stateTimer = d.stateTimer ∧
    (setEventAt d i ev).wipEvent = d.wipEvent ∧
    (setEventAt d i ev).rtIsCalibrating = d.rtIsCalibrating ∧
    (setEventAt d i ev).bufWriteIdx = d.bufWriteIdx ∧
    (setEventAt d i ev).bufferReady = d.bufferReady :=
  ⟨rfl, rfl, rfl, rfl, rfl, rfl, rfl, rfl⟩

/-- Non-buffer frame of `pushEvent`. -/
lemma pushEvent_frame (d : DM) (ev : EventQ) :
    (pushEvent d ev).smState = d.smState ∧
    (pushEvent d ev).totalSamples = d.totalSamples ∧
    (pushEvent d ev).onsetTimestamp = d.onsetTimestamp ∧
    (pushEvent d ev).stateTimer = d.stateTimer ∧
    (pushEvent d ev).wipEvent = d.wipEvent ∧
    (pushEvent d ev).rtIsCalibrating = d.rtIsCalibrating ∧
    (pushEvent d ev).lastEventSamples = d.lastEventSamples := by
  rw [pushEvent]
  split_ifs <;> exact ⟨rfl, rfl, rfl, rfl, rfl, rfl, rfl⟩

/-- The slot update of `calculate_delta_f0` keeps the target's timestamp and
every other slot. -/
lemma calcDeltaF0_slots (cfg : MConfig) (d : DM) (i : ℕ) :
    ((calcDeltaF0 cfg d i).bufferEvents i).timestampSamples =
      (d.bufferEvents i).timestampSamples ∧
    ∀ j, j ≠ i → (calcDeltaF0 cfg d i).bufferEvents j = d.bufferEvents j := by
  obtain ⟨ev, hev⟩ := calcDeltaF0_eq_set cfg d i
  constructor
  · rw [calcDeltaF0]
    split_ifs <;> simp [setEventAt]
  · intro j hj
    rw [hev, setEventAt]
    simp [hj]

/-- Non-buffer frame of `calculate_delta_f0`. -/
lemma calcDeltaF0_frame (cfg : MConfig) (d : DM) (i : ℕ) :
    (calcDeltaF0 cfg d i).smState = d.smState ∧
    (calcDeltaF0 cfg d i).totalSamples = d.totalSamples ∧
    (calcDeltaF0 cfg d i).onsetTimestamp = d.onsetTimestamp ∧
    (calcDeltaF0 cfg d i).stateTimer = d.stateTimer ∧
    (calcDeltaF0 cfg d i).wipEvent = d.wipEvent ∧
    (calcDeltaF0 cfg d i).rtIsCalibrating = d.rtIsCalibrating ∧
    (calcDeltaF0 cfg d i).bufWriteIdx = d.bufWriteIdx ∧
    (calcDeltaF0 cfg d i).bufferReady = d.bufferReady := by
  obtain ⟨ev, hev⟩ := calcDeltaF0_eq_set cfg d i
  rw [hev]
  exact setEventAt_frame d i ev

/-- `StateOk` only depends on the history list and a few scalar fields. -/
lemma StateOk_congr {cfg : MConfig} {H H' : List ℕ} {d d' : DM}
    (hH : H' = H) (h1 : d'.smState = d.smState)
    (h2 : d'.totalSamples = d.totalSamples)
    (h3 : d'.onsetTimestamp = d.onsetTimestamp)
    (h4 : d'.stateTimer = d.stateTimer)
    (h5 : d'.wipEvent.timestampSamples = d.wipEvent.timestampSamples)
    (h : StateOk cfg H d) : StateOk cfg H' d' := by
  rw [StateOk, hH, h1, h2, h3, h4, h5]
  exact h

/-- Preservation of the invariant by the IDLE branch at an incremented sample
counter. -/
lemma stepIdle_inv (cfg : MConfig) (ets : List ℕ) (d : DM) (inp : SIn)
    (hinv : Inv cfg ets d) (hidle : d.smState = .idle) :
    Inv cfg ets (stepIdle cfg { d with totalSamples := d.totalSamples + 1 } inp) := by
  obtain ⟨hring, hcal, hpw, hso⟩ := hinv
  obtain ⟨hfb, hfr, hfw, hfc, hfcal, hft, hfl⟩ :=
    stepIdle_ring_frame cfg { d with totalSamples := d.totalSamples + 1 } inp
  have hpend :
      pendingTs (stepIdle cfg { d with totalSamples := d.totalSamples + 1 } inp) =
        pendingTs d :=
    pendingTs_congr hfb hfr hfc
  refine ⟨⟨?_, ?_, ?_⟩, ?_, ?_, ?_, ?_, ?_⟩
  · rw [hfr]; exact hring.1
  · rw [hfc]; exact hring.2.1
  · rw [hfw, hfr, hfc]; exact hring.2.2
  · rw [hfcal]; exact hcal
  · rw [hpend]; exact hpw
  · -- IDLE implication
    intro _ t ht
    rw [hpend] at ht
    have h1 := hso.1 hidle t ht
    rw [hft]
    show t + cfg.minDistSamples + 1 ≤ d.totalSamples + 1
    omega
  · -- ONSET_RISING / NUCLEUS implication
    rcases stepIdle_outcome cfg { d with totalSamples := d.totalSamples + 1 } inp with
      heq | ⟨hs, ho, htm, hw⟩
    · intro hmem
      exfalso
      rw [heq] at hmem
      have hsid : ({ d with totalSamples := d.totalSamples + 1 } : DM).smState = .idle :=
        hidle
      rcases hmem with h | h <;> rw [hsid] at h <;> exact SMState.noConfusion h
    · intro _
      refine ⟨?_, ?_, ?_⟩
      · intro t ht
        rw [hpend] at ht
        have h1 := hso.1 hidle t ht
        rw [ho]
        show t + cfg.minDistSamples + 2 ≤ d.totalSamples + 1
        omega
      · rw [hft, ho, htm]
      · rw [hw, ho]
  · -- COOLDOWN implication
    rcases stepIdle_outcome cfg { d with totalSamples := d.totalSamples + 1 } inp with
      heq | ⟨hs, _, _, _⟩
    · intro hmem
      exfalso
      rw [heq] at hmem
      have hsid : ({ d with totalSamples := d.totalSamples + 1 } : DM).smState = .idle :=
        hidle
      rw [hsid] at hmem
      exact SMState.noConfusion hmem
    · intro hmem
      exfalso
      rw [hs] at hmem
      exact SMState.noConfusion hmem

/-- Preservation of the invariant by the ONSET_RISING branch at an
incremented sample counter. -/
lemma stepRising_inv (cfg : MConfig) (ets : List ℕ) (d : DM) (inp : SIn)
    (hinv : Inv cfg ets d) (hst : d.smState = .onsetRising) :
    Inv cfg ets (stepRising cfg { d with totalSamples := d.totalSamples + 1 } inp) := by
  obtain ⟨hring, hcal, hpw, hso⟩ := hinv
  obtain ⟨hbound, htot, hwip⟩ := hso.2.1 (Or.inl hst)
  obtain ⟨hfb, hfr, hfw, hfc, hfcal, hft, hfo, htm, hw, hfl⟩ :=
    stepRising_frame cfg { d with totalSamples := d.totalSamples + 1 } inp
  have hpend :
      pendingTs (stepRising cfg { d with totalSamples := d.totalSamples + 1 } inp) =
        pendingTs d :=
    pendingTs_congr hfb hfr hfc
  have hwipOk :
      (∀ t ∈ ets ++
          pendingTs (stepRising cfg { d with totalSamples := d.totalSamples + 1 } inp),
        gapRel cfg t
          (stepRising cfg { d with totalSamples := d.totalSamples + 1 } inp).onsetTimestamp) ∧
      (stepRising cfg { d with totalSamples := d.totalSamples + 1 } inp).totalSamples =
        (stepRising cfg { d with totalSamples := d.totalSamples + 1 } inp).onsetTimestamp +
        (stepRising cfg { d with totalSamples := d.totalSamples + 1 } inp).stateTimer ∧
      (stepRising cfg
          { d with totalSamples := d.totalSamples + 1 } inp).wipEvent.timestampSamples =
        (stepRising cfg { d with totalSamples := d.totalSamples + 1 } inp).onsetTimestamp := by
    refine ⟨?_, ?_, ?_⟩
    · intro t ht
      rw [hpend] at ht
      rw [hfo]
      exact hbound t ht
    · rw [hft, hfo, htm]
      show d.totalSamples + 1 = d.onsetTimestamp + (d.stateTimer + 1)
      omega
    · rw [hw, hfo]
      exact hwip
  refine ⟨⟨?_, ?_, ?_⟩, ?_, ?_, ?_, ?_, ?_⟩
  · rw [hfr]; exact hring.1
  · rw [hfc]; exact hring.2.1
  · rw [hfw, hfr, hfc]; exact hring.2.2
  · rw [hfcal]; exact hcal
  · rw [hpend]; exact hpw
  · intro hmem
    exfalso
    rcases stepRising_state cfg { d with totalSamples := d.totalSamples + 1 } inp with
      h | h | h <;> rw [h] at hmem <;> exact SMState.noConfusion hmem
  · intro _
    exact hwipOk
  · intro _
    refine ⟨?_, ?_⟩
    · intro t ht
      have := hwipOk.1 t ht
      rw [gapRel] at this
      omega
    · exact hwipOk.2.1

/-- Preservation of the invariant by the NUCLEUS branch at an incremented
sample counter. -/
lemma stepNucleus_inv (cfg : MConfig) (ets : List ℕ) (d : DM) (inp : SIn)
    (hinv : Inv cfg ets d) (hst : d.smState = .nucleus) :
    Inv cfg ets (stepNucleus cfg { d with totalSamples := d.totalSamples + 1 } inp) := by
  obtain ⟨hring, hcal, hpw, hso⟩ := hinv
  obtain ⟨hbound, htot, hwip⟩ := hso.2.1 (Or.inr hst)
  rcases stepNucleus_outcome cfg { d with totalSamples := d.totalSamples + 1 } inp with
    heq | heq
  · -- tick, stays in NUCLEUS
    rw [heq]
    have hpend : pendingTs
        ({ { d with totalSamples := d.totalSamples + 1 } with
           stateTimer := ({ d with totalSamples := d.totalSamples + 1 } : DM).stateTimer + 1
           energyAccum := ({ d with
             totalSamples := d.totalSamples + 1 } : DM).energyAccum + inp.envOut } : DM) =
        pendingTs d :=
      pendingTs_congr rfl rfl rfl
    refine ⟨⟨hring.1, hring.2.1, hring.2.2⟩, hcal, ?_, ?_, ?_, ?_⟩
    · rw [hpend]; exact hpw
    · intro hmem
      exfalso
      have hmem' : d.smState = SMState.idle := hmem
      rw [hst] at hmem'
      exact SMState.noConfusion hmem'
    · intro _
      refine ⟨?_, ?_, ?_⟩
      · intro t ht
        rw [hpend] at ht
        exact hbound t ht
      · show d.totalSamples + 1 = d.onsetTimestamp + (d.stateTimer + 1)
        omega
      · exact hwip
    · intro hmem
      exfalso
      have hmem' : d.smState = SMState.cooldown := hmem
      rw [hst] at hmem'
      exact SMState.noConfusion hmem'
  · -- finalise, push, COOLDOWN
    rw [heq]
    set ev : EventQ :=
      { d.wipEvent with
        durationS := ((d.totalSamples + 1 - d.onsetTimestamp : ℕ) : ℚ) / cfg.sampleRate
        energy := d.energyAccum + inp.envOut
        f0 := inp.currentF0 } with hev
    set base : DM :=
      { d with
        totalSamples := d.totalSamples + 1
        stateTimer := d.stateTimer + 1
        energyAccum := d.energyAccum + inp.envOut
        smState := .cooldown
        wipEvent := ev } with hbase
    have hringb : RingInv base := hring
    have hevts : ev.timestampSamples = d.onsetTimestamp := hwip
    have hpushTs := pendingTs_push base ev hringb
    have hpendb : pendingTs base = pendingTs d := pendingTs_congr rfl rfl rfl
    obtain ⟨hps, hpt, hpo, hptm, hpw2, hpc, hpl⟩ := pushEvent_frame base ev
    have hpendEq : pendingTs ({ pushEvent base ev with
        lastEventSamples := d.totalSamples + 1 } : DM) = pendingTs (pushEvent base ev) :=
      pendingTs_congr rfl rfl rfl
    have hcount : base.bufCount = d.bufCount := rfl
    refine ⟨?_, ?_, ?_, ?_, ?_, ?_⟩
    · -- RingInv
      have := pushEvent_ring base ev hringb
      exact ⟨this.1, this.2.1, this.2.2⟩
    · show (pushEvent base ev).rtIsCalibrating = false
      rw [hpc]
      exact hcal
    · -- Pairwise
      rw [hpendEq, hpushTs, hpendb, hcount, hevts]
      have hmem : ∀ t ∈ ets ++ (if d.bufCount < 16 then pendingTs d
          else (pendingTs d).tail), gapRel cfg t d.onsetTimestamp := by
        intro t ht
        rcases List.mem_append.mp ht with h1 | h1
        · exact hbound t (List.mem_append_left _ h1)
        · split_ifs at h1 with hsz
          · exact hbound t (List.mem_append_right _ h1)
          · exact hbound t (List.mem_append_right _ (List.mem_of_mem_tail h1))
      have hsub : (ets ++ (if d.bufCount < 16 then pendingTs d
          else (pendingTs d).tail)).Pairwise (gapRel cfg) := by
        split_ifs with hsz
        · exact hpw
        · exact hpw.sublist ((List.tail_sublist (pendingTs d)).append_left ets)
      rw [show ets ++ ((if d.bufCount < 16 then pendingTs d
          else (pendingTs d).tail) ++ [d.onsetTimestamp]) =
          (ets ++ (if d.bufCount < 16 then pendingTs d
            else (pendingTs d).tail)) ++ [d.onsetTimestamp] from
        (List.append_assoc _ _ _).symm]
      rw [List.pairwise_append]
      refine ⟨hsub, List.pairwise_singleton _ _, ?_⟩
      intro a ha b hb
      rw [List.mem_singleton] at hb
      subst hb
      exact hmem a ha
    · intro hmem
      exfalso
      have hmem' : (pushEvent base ev).smState = SMState.idle := hmem
      rw [hps] at hmem'
      exact SMState.noConfusion hmem'
    · intro hmem
      exfalso
      rcases hmem with h | h <;>
        · have hmem' : (pushEvent base ev).smState = _ := h
          rw [hps] at hmem'
          exact SMState.noConfusion hmem'
    · intro _
      constructor
      · intro t ht
        show t ≤ (pushEvent base ev).onsetTimestamp
        rw [hpo]
        have ht' : t ∈ ets ++ ((if d.bufCount < 16 then pendingTs d
            else (pendingTs d).tail) ++ [d.onsetTimestamp]) := by
          have : pendingTs ({ pushEvent base ev with
              lastEventSamples := d.totalSamples + 1 } : DM) =
              (if d.bufCount < 16 then pendingTs d
                else (pendingTs d).tail) ++ [d.onsetTimestamp] := by
            rw [hpendEq, hpushTs, hpendb, hcount, hevts]
          rw [this] at ht
          exact ht
        show t ≤ d.onsetTimestamp
        rcases List.mem_append.mp ht' with h1 | h1
        · have := hbound t (List.mem_append_left _ h1)
          rw [gapRel] at this
          omega
        · rcases List.mem_append.mp h1 with h2 | h2
          · have h3 : t ∈ pendingTs d := by
              split_ifs at h2 with hsz
              · exact h2
              · exact List.mem_of_mem_tail h2
            have := hbound t (List.mem_append_right _ h3)
            rw [gapRel] at this
            omega
          · rw [List.mem_singleton] at h2
            omega
      · show (pushEvent base ev).totalSamples =
          (pushEvent base ev).onsetTimestamp + (pushEvent base ev).stateTimer
        rw [hpt, hpo, hptm]
        show d.totalSamples + 1 = d.onsetTimestamp + (d.stateTimer + 1)
        omega

/-- Preservation of the invariant by the COOLDOWN branch at an incremented
sample counter. -/
lemma stepCooldown_inv (cfg : MConfig) (ets : List ℕ) (d : DM)
    (hinv : Inv cfg ets d) (hst : d.smState = .cooldown) :
    Inv cfg ets (stepCooldown cfg { d with totalSamples := d.totalSamples + 1 }) := by
  obtain ⟨hring, hcal, hpw, hso⟩ := hinv
  obtain ⟨hle, htot⟩ := hso.2.2 hst
  obtain ⟨hfb, hfr, hfw, hfc, hfcal, hft, hfo, htm⟩ :=
    stepCooldown_frame cfg { d with totalSamples := d.totalSamples + 1 }
  have hpend :
      pendingTs (stepCooldown cfg { d with totalSamples := d.totalSamples + 1 }) =
        pendingTs d :=
    pendingTs_congr hfb hfr hfc
  refine ⟨⟨?_, ?_, ?_⟩, ?_, ?_, ?_, ?_, ?_⟩
  · rw [hfr]; exact hring.1
  · rw [hfc]; exact hring.2.1
  · rw [hfw, hfr, hfc]; exact hring.2.2
  · rw [hfcal]; exact hcal
  · rw [hpend]; exact hpw
  · -- IDLE implication
    intro hmem t ht
    rw [hpend] at ht
    rcases stepCooldown_state cfg { d with totalSamples := d.totalSamples + 1 } with
      ⟨hs, _⟩ | ⟨_, hgt⟩
    · exfalso
      rw [hs] at hmem
      have h' : d.smState = SMState.idle := hmem
      rw [hst] at h'
      exact SMState.noConfusion h'
    · rw [hft]
      show t + cfg.minDistSamples + 1 ≤ d.totalSamples + 1
      have h1 := hle t ht
      have hgt' : d.stateTimer + 1 > cfg.minDistSamples := hgt
      omega
  · intro hmem
    exfalso
    rcases stepCooldown_state cfg { d with totalSamples := d.totalSamples + 1 } with
      ⟨hs, _⟩ | ⟨hs, _⟩ <;> rcases hmem with h | h <;> rw [hs] at h
    · have h' : d.smState = SMState.onsetRising := h
      rw [hst] at h'
      exact SMState.noConfusion h'
    · have h' : d.smState = SMState.nucleus := h
      rw [hst] at h'
      exact SMState.noConfusion h'
    · exact SMState.noConfusion h
    · exact SMState.noConfusion h
  · intro _
    refine ⟨?_, ?_⟩
    · intro t ht
      rw [hpend] at ht
      rw [hfo]
      exact hle t ht
    · rw [hft, hfo, htm]
      show d.totalSamples + 1 = d.onsetTimestamp + (d.stateTimer + 1)
      omega

/-- Splitting the head off the pending timestamps after a front pop: any
state whose buffer agrees with `d` away from the read slot, whose read index
advanced by one and whose count dropped by one carries exactly the tail. -/
lemma pendingTs_pop (d dnew : DM) (hring : RingInv d) (hpos : 0 < d.bufCount)
    (hbne : ∀ j, j ≠ d.bufReadIdx → dnew.bufferEvents j = d.bufferEvents j)
    (hr : dnew.bufReadIdx = (d.bufReadIdx + 1) % 16)
    (hc : dnew.bufCount = d.bufCount - 1) :
    pendingTs d =
      (d.bufferEvents d.bufReadIdx).timestampSamples :: pendingTs dnew := by
  obtain ⟨h1, h2, _⟩ := hring
  obtain ⟨k, hk⟩ : ∃ k, d.bufCount = k + 1 := ⟨d.bufCount - 1, by omega⟩
  rw [pendingTs, pendingTs, pendingList, pendingList, hr, hc, hk]
  rw [Nat.add_sub_cancel]
  rw [List.range_succ_eq_map]
  simp only [List.map_cons, List.map_map]
  congr 1
  · show (d.bufferEvents ((d.bufReadIdx + 0) % 16)).timestampSamples = _
    rw [Nat.add_zero, Nat.mod_eq_of_lt h1]
  · apply List.map_congr_left
    intro j hj
    have hjk : j < k := List.mem_range.mp hj
    have hidx : ((d.bufReadIdx + 1) % 16 + j) % 16 = (d.bufReadIdx + (j + 1)) % 16 := by
      omega
    have hne : (d.bufReadIdx + (j + 1)) % 16 ≠ d.bufReadIdx := by
      omega
    show (d.bufferEvents ((d.bufReadIdx + (j + 1)) % 16)).timestampSamples =
      (dnew.bufferEvents (((d.bufReadIdx + 1) % 16 + j) % 16)).timestampSamples
    rw [hidx, hbne _ hne]

/-- The state facts of one front pop. -/
lemma popFront_facts (cfg : MConfig) (thr : ℚ) (d : DM)
    (hring : RingInv d) (hpos : 0 < d.bufCount) :
    pendingTs d =
      (popFront cfg thr d).1.timestampSamples :: pendingTs (popFront cfg thr d).2 ∧
    RingInv (popFront cfg thr d).2 ∧
    (popFront cfg thr d).2.rtIsCalibrating = d.rtIsCalibrating ∧
    (popFront cfg thr d).2.smState = d.smState ∧
    (popFront cfg thr d).2.totalSamples = d.totalSamples ∧
    (popFront cfg thr d).2.onsetTimestamp = d.onsetTimestamp ∧
    (popFront cfg thr d).2.stateTimer = d.stateTimer ∧
    (popFront cfg thr d).2.wipEvent = d.wipEvent := by
  obtain ⟨hf1, hf2, hf3, hf4, hf5, hf6, hf7, hf8⟩ :=
    calcDeltaF0_frame cfg d d.bufReadIdx
  have hts : (popFront cfg thr d).1.timestampSamples =
      (d.bufferEvents d.bufReadIdx).timestampSamples := by
    show ((calcDeltaF0 cfg d d.bufReadIdx).bufferEvents d.bufReadIdx).timestampSamples =
      (d.bufferEvents d.bufReadIdx).timestampSamples
    exact (calcDeltaF0_slots cfg d d.bufReadIdx).1
  have hbne : ∀ j, j ≠ d.bufReadIdx →
      (popFront cfg thr d).2.bufferEvents j = d.bufferEvents j := by
    intro j hj
    show (if j = d.bufReadIdx then _ else (calcDeltaF0 cfg d d.bufReadIdx).bufferEvents j)
      = d.bufferEvents j
    rw [if_neg hj]
    exact (calcDeltaF0_slots cfg d d.bufReadIdx).2 j hj
  have hr : (popFront cfg thr d).2.bufReadIdx = (d.bufReadIdx + 1) % 16 := rfl
  have hc : (popFront cfg thr d).2.bufCount = d.bufCount - 1 := by
    show (calcDeltaF0 cfg d d.bufReadIdx).bufCount - 1 = d.bufCount - 1
    rw [calcDeltaF0_bufCount]
  refine ⟨?_, ⟨?_, ?_, ?_⟩, ?_, ?_, ?_, ?_, ?_, ?_⟩
  · rw [hts]
    exact pendingTs_pop d (popFront cfg thr d).2 hring hpos hbne hr hc
  · rw [hr]
    omega
  · rw [hc]
    have h2 := hring.2.1
    omega
  · show (calcDeltaF0 cfg d d.bufReadIdx).bufWriteIdx = _
    rw [hf7, hr, hc]
    have h1 := hring.1
    have h2 := hring.2.1
    rw [hring.2.2]
    omega
  · exact hf6
  · exact hf1
  · exact hf2
  · exact hf3
  · exact hf4
  · exact hf5

/-- Preservation of the invariant by the emission loop: the popped timestamps
move from the pending list to the emitted history, leaving it unchanged as a
whole. -/
lemma emitLoop_inv (cfg : MConfig) (ctx : ℕ) (thr : ℚ) :
    ∀ (cap : ℕ) (ets : List ℕ) (d : DM), Inv cfg ets d →
      Inv cfg (ets ++ (emitLoop cfg ctx thr d cap).1.map EventQ.timestampSamples)
        (emitLoop cfg ctx thr d cap).2
  | 0, ets, d, h => by simpa [emitLoop] using h
  | cap + 1, ets, d, h => by
    rw [emitLoop]
    split
    · next hcnt =>
      obtain ⟨hring, hcal, hpw, hso⟩ := h
      obtain ⟨hsplit, hring2, hcal2, hsm2, htt2, hot2, hst2, hwp2⟩ :=
        popFront_facts cfg thr d hring (by omega)
      have hH : (ets ++ [(popFront cfg thr d).1.timestampSamples]) ++
          pendingTs (popFront cfg thr d).2 = ets ++ pendingTs d := by
        rw [List.append_assoc, List.singleton_append, ← hsplit]
      have hinv2 : Inv cfg (ets ++ [(popFront cfg thr d).1.timestampSamples])
          (popFront cfg thr d).2 := by
        refine ⟨hring2, by rw [hcal2]; exact hcal, ?_, ?_⟩
        · rw [hH]
          exact hpw
        · exact StateOk_congr hH hsm2 htt2 hot2 hst2 (by rw [hwp2]) hso
      have hrec := emitLoop_inv cfg ctx thr cap
        (ets ++ [(popFront cfg thr d).1.timestampSamples]) (popFront cfg thr d).2 hinv2
      simpa [List.append_assoc] using hrec
    · next hcnt =>
      simpa [emitLoop] using h

/-- When not calibrating, a processed sample is the state-machine branch for
the current state at an incremented sample counter. -/
lemma machineStep_notcal (cfg : MConfig) (d : DM) (inp : SIn)
    (hcal : d.rtIsCalibrating = false) :
    machineStep cfg d inp =
      match d.smState with
      | .idle => stepIdle cfg { d with totalSamples := d.totalSamples + 1 } inp
      | .onsetRising => stepRising cfg { d with totalSamples := d.totalSamples + 1 } inp
      | .nucleus => stepNucleus cfg { d with totalSamples := d.totalSamples + 1 } inp
      | .cooldown => stepCooldown cfg { d with totalSamples := d.totalSamples + 1 } := by
  rw [machineStep]
  simp only [hcal, Bool.and_false, Bool.false_eq_true, if_false]

/-- Preservation of the invariant by one processed sample. -/
lemma machineStep_inv (cfg : MConfig) (ets : List ℕ) (d : DM) (inp : SIn)
    (hinv : Inv cfg ets d) : Inv cfg ets (machineStep cfg d inp) := by
  rw [machineStep_notcal cfg d inp hinv.2.1]
  cases hst : d.smState with
  | idle =>
    have h := stepIdle_inv cfg ets d inp hinv hst
    rwa [hst] at h
  | onsetRising =>
    have h := stepRising_inv cfg ets d inp hinv hst
    rwa [hst] at h
  | nucleus =>
    have h := stepNucleus_inv cfg ets d inp hinv hst
    rwa [hst] at h
  | cooldown =>
    have h := stepCooldown_inv cfg ets d hinv hst
    rwa [hst] at h

/-- Preservation of the invariant by the per-sample loop of
`syllable_process`, relative to a base history `ets0` of previously emitted
timestamps. -/
lemma processLoop_inv (cfg : MConfig) (cap : ℕ) :
    ∀ (ins : List SIn) (written : List EventQ) (d : DM) (ets0 : List ℕ),
      Inv cfg (ets0 ++ written.map EventQ.timestampSamples) d →
      Inv cfg (ets0 ++ (processLoop cfg cap written d ins).1.map EventQ.timestampSamples)
        (processLoop cfg cap written d ins).2
  | [], written, d, ets0, h => by simpa [processLoop] using h
  | inp :: rest, written, d, ets0, h => by
    rw [processLoop]
    have h1 : Inv cfg (ets0 ++ written.map EventQ.timestampSamples)
        (machineStep cfg d inp) := machineStep_inv cfg _ d inp h
    rw [if_neg (by simp [h1.2.1])]
    have h2 := emitLoop_inv cfg (contextNeeded cfg) 0.9
      (cap - written.length) (ets0 ++ written.map EventQ.timestampSamples)
      (machineStep cfg d inp) h1
    have h3 : Inv cfg (ets0 ++ (written ++
        (emitLoop cfg (contextNeeded cfg) 0.9 (machineStep cfg d inp)
          (cap - written.length)).1).map EventQ.timestampSamples)
        (emitLoop cfg (contextNeeded cfg) 0.9 (machineStep cfg d inp)
          (cap - written.length)).2 := by
      rw [List.map_append, ← List.append_assoc]
      exact h2
    exact processLoop_inv cfg cap rest _ _ ets0 h3

/-- Preservation of the invariant by one whole `syllable_process` call. -/
lemma processM_inv (cfg : MConfig) (d : DM) (ins : List SIn) (cap : ℕ)
    (ets0 : List ℕ) (h : Inv cfg ets0 d) :
    Inv cfg (ets0 ++ (processM cfg d ins cap).1.map EventQ.timestampSamples)
      (processM cfg d ins cap).2 := by
  rw [processM]
  exact processLoop_inv cfg cap ins [] d ets0 (by simpa using h)

/-- Preservation of the invariant by one `syllable_flush` call. -/
lemma flushM_inv (cfg : MConfig) (d : DM) (cap : ℕ) (ets0 : List ℕ)
    (h : Inv cfg ets0 d) :
    Inv cfg (ets0 ++ (flushM cfg d cap).1.map EventQ.timestampSamples)
      (flushM cfg d cap).2 := by
  rw [flushM]
  exact emitLoop_inv cfg 0 1.2 cap ets0 d h

/-- Preservation of the invariant along any interleaving of `process` and
`flush` calls. -/
lemma runCalls_inv (cfg : MConfig) :
    ∀ (calls : List DCall) (d : DM) (ets0 : List ℕ), Inv cfg ets0 d →
      Inv cfg (ets0 ++ (runCalls cfg d calls).1.map EventQ.timestampSamples)
        (runCalls cfg d calls).2
  | [], d, ets0, h => by simpa [runCalls] using h
  | c :: rest, d, ets0, h => by
    cases c with
    | proc ins cap =>
      rw [show runCalls cfg d (DCall.proc ins cap :: rest) =
          ((processM cfg d ins cap).1 ++
              (runCalls cfg (processM cfg d ins cap).2 rest).1,
            (runCalls cfg (processM cfg d ins cap).2 rest).2) from rfl]
      have h1 := processM_inv cfg d ins cap ets0 h
      have h2 := runCalls_inv cfg rest (processM cfg d ins cap).2 _ h1
      simpa [List.map_append, List.append_assoc] using h2
    | flush cap =>
      rw [show runCalls cfg d (DCall.flush cap :: rest) =
          ((flushM cfg d cap).1 ++ (runCalls cfg (flushM cfg d cap).2 rest).1,
            (runCalls cfg (flushM cfg d cap).2 rest).2) from rfl]
      have h1 := flushM_inv cfg d cap ets0 h
      have h2 := runCalls_inv cfg rest (flushM cfg d cap).2 _ h1
      simpa [List.map_append, List.append_assoc] using h2

/-- The invariant holds at the freshly constructed detector. -/
lemma initDM_inv (cfg : MConfig) : Inv cfg [] initDM := by
  have hpend : pendingTs initDM = [] := by
    simp [pendingTs, pendingList, initDM]
  refine ⟨⟨?_, ?_, ?_⟩, rfl, ?_, ?_, ?_, ?_⟩
  · show (0 : ℕ) < 16
    omega
  · show (0 : ℕ) ≤ 16
    omega
  · rfl
  · rw [List.nil_append, hpend]
    exact List.Pairwise.nil
  · intro _ t ht
    rw [List.nil_append, hpend] at ht
    exact absurd ht (List.not_mem_nil t)
  · intro hmem
    exfalso
    rcases hmem with hm | hm <;> exact SMState.noConfusion hm
  · intro hmem
    exact SMState.noConfusion hmem

/-- C2: across any interleaving of `process` and `flush` calls on one
freshly-created detector, the timestamps of the emitted events, in emission
order, are strictly increasing and consecutive (indeed all) pairs are
separated by at least `minDistSamples`, the configured minimum syllable
distance converted to samples. -/
theorem C2_timestamps_order (cfg : MConfig) (calls : List DCall) :
    ((runCalls cfg initDM calls).1.map EventQ.timestampSamples).Pairwise
      (fun a b => a < b ∧ a + cfg.minDistSamples ≤ b) := by
  have h := runCalls_inv cfg calls initDM [] (initDM_inv cfg)
  have hpw := h.2.2.1
  rw [List.nil_append] at hpw
  have hleft :
      ((runCalls cfg initDM calls).1.map EventQ.timestampSamples).Pairwise
        (gapRel cfg) :=
    (List.pairwise_append.mp hpw).1
  exact hleft.imp fun hab => by
    rw [gapRel] at hab
    exact ⟨by omega, by omega⟩

end SyllableDetection
